import Mathlib

/-!
Verification development for the cvflix frontend repository.

The development shallowly embeds the streaming event decoder
(`processStream` in src/components/main-app.tsx), the SSE event
dispatcher (`handleSSEEvent` in src/components/main-app.tsx), and the
relevant parts of the PDF report generator (src/lib/pdf-generator.ts,
src/components/report-sidebar.tsx).  JavaScript strings are embedded as
`List Char`, JavaScript runtime values as the inductive `JsVal`, and
code that can throw returns `Except Unit`.
-/

namespace CVFlix

/-- JavaScript strings are modelled as lists of characters. -/
abbrev Str := List Char

/-- Opening curly brace character (written via its code point). -/
def lbrace : Char := Char.ofNat 123

/-- Closing curly brace character (written via its code point). -/
def rbrace : Char := Char.ofNat 125

/-- Whitespace recognised by JavaScript `String.prototype.trim` (restricted
to the ASCII whitespace characters that can occur in this protocol). -/
def isWsChar (c : Char) : Bool :=
  c = ' ' || c = '\t' || c = '\n' || c = '\r'

/-- Model of JavaScript `String.prototype.trim`: strip whitespace from both
ends. -/
def strTrim (s : Str) : Str :=
  ((s.dropWhile isWsChar).reverse.dropWhile isWsChar).reverse

/-- Model of JavaScript `String.prototype.startsWith`. -/
def strStartsWith (pre s : Str) : Bool :=
  pre.isPrefixOf s

/-- Model of JavaScript `String.prototype.includes` on strings: `needle`
occurs as a contiguous substring. -/
def strIncludes (needle s : Str) : Bool :=
  decide (List.IsInfix needle s)

/-- Decimal digits of a natural number, most significant first. -/
def natDigits (n : Nat) : Str :=
  (Nat.toDigits 10 n)

/-- Decimal rendering of an integer, as JavaScript template literals render
integral numbers. -/
def intToStr (n : Int) : Str :=
  if n < 0 then '-' :: natDigits n.natAbs else natDigits n.natAbs

/-- JavaScript split on the newline character, with the semantics of
`buffer.split("\n")`: the result is always non-empty, and contains the
maximal newline-free segments in order. -/
def splitNl : Str → List Str
  | [] => [[]]
  | c :: cs =>
    if c = '\n' then [] :: splitNl cs
    else
      match splitNl cs with
      | [] => [[c]]
      | l :: ls => (c :: l) :: ls

/-- Model of the JavaScript runtime values that can flow through the SSE
pipeline: `undefined` is `undefined`, `nan` is the number `NaN`; numbers are
restricted to integers (every numeric literal exercised by the protocol
claims is integral). -/
inductive JsVal : Type where
  | undefined : JsVal
  | null : JsVal
  | nan : JsVal
  | bool : Bool → JsVal
  | num : Int → JsVal
  | str : Str → JsVal
  | arr : List JsVal → JsVal
  | obj : List (Str × JsVal) → JsVal
  deriving Repr

/-- Structural decidable equality for `JsVal`. -/
def JsVal.beq : JsVal → JsVal → Bool
  | .undefined, .undefined => true
  | .null, .null => true
  | .nan, .nan => true
  | .bool a, .bool b => a = b
  | .num a, .num b => a = b
  | .str a, .str b => a = b
  | .arr a, .arr b => beqList a b
  | .obj a, .obj b => beqObj a b
  | _, _ => false
where
  /-- Element-wise equality on value lists. -/
  beqList : List JsVal → List JsVal → Bool
    | [], [] => true
    | x :: xs, y :: ys => x.beq y && beqList xs ys
    | _, _ => false
  /-- Element-wise equality on key-value lists. -/
  beqObj : List (Str × JsVal) → List (Str × JsVal) → Bool
    | [], [] => true
    | (k, x) :: xs, (l, y) :: ys => k = l && x.beq y && beqObj xs ys
    | _, _ => false

/-- Whitespace accepted by the JSON grammar between tokens. -/
def skipJsonWs (s : Str) : Str :=
  s.dropWhile isWsChar

/-- Decimal digit test. -/
def isDigitChar (c : Char) : Bool :=
  '0' ≤ c && c ≤ '9'

/-- Parse a non-empty run of decimal digits into a natural number. -/
def parseDigits : Str → Option (Nat × Str)
  | s =>
    let ds := s.takeWhile isDigitChar
    if ds = [] then none
    else some (ds.foldl (fun acc c => acc * 10 + (c.toNat - '0'.toNat)) 0,
               s.dropWhile isDigitChar)

/-- Parse the body of a JSON string after the opening quote, up to and
including the closing quote.  Escape sequences are not modelled (no string
exercised by the protocol claims contains one); a backslash makes the parse
fail. -/
def parseStrBody : Str → Option (Str × Str)
  | [] => none
  | c :: cs =>
    if c = '"' then some ([], cs)
    else if c = '\\' then none
    else match parseStrBody cs with
      | some (body, rest) => some (c :: body, rest)
      | none => none

mutual

/-- Fuel-indexed model of the value production of the external
`JSON.parse` builtin, restricted to integer numerals and escape-free
strings (the only forms the protocol payloads of this repository use).
Returns the parsed value and the unconsumed remainder. -/
def parseVal : Nat → Str → Option (JsVal × Str)
  | 0, _ => none
  | fuel + 1, s =>
    match skipJsonWs s with
    | [] => none
    | c :: rest =>
      if c = '"' then
        match parseStrBody rest with
        | some (body, rest2) => some (.str body, rest2)
        | none => none
      else if c = lbrace then
        match skipJsonWs rest with
        | c2 :: rest2 =>
          if c2 = rbrace then some (.obj [], rest2)
          else parseMembers fuel (c2 :: rest2)
        | [] => none
      else if c = '[' then
        match skipJsonWs rest with
        | c2 :: rest2 =>
          if c2 = ']' then some (.arr [], rest2)
          else parseElems fuel (c2 :: rest2)
        | [] => none
      else if c = 't' then
        if strStartsWith "rue".toList rest then some (.bool true, rest.drop 3)
        else none
      else if c = 'f' then
        if strStartsWith "alse".toList rest then some (.bool false, rest.drop 4)
        else none
      else if c = 'n' then
        if strStartsWith "ull".toList rest then some (.null, rest.drop 3)
        else none
      else if c = '-' then
        match parseDigits rest with
        | some (n, rest2) => some (.num (-(n : Int)), rest2)
        | none => none
      else if isDigitChar c then
        match parseDigits (c :: rest) with
        | some (n, rest2) => some (.num (n : Int), rest2)
        | none => none
      else none

/-- Parse one or more comma-separated `"key": value` members followed by a
closing brace. -/
def parseMembers : Nat → Str → Option (JsVal × Str)
  | 0, _ => none
  | fuel + 1, s =>
    match skipJsonWs s with
    | c :: rest =>
      if c = '"' then
        match parseStrBody rest with
        | some (key, rest2) =>
          match skipJsonWs rest2 with
          | ':' :: rest3 =>
            match parseVal fuel rest3 with
            | some (v, rest4) =>
              match skipJsonWs rest4 with
              | ',' :: rest5 =>
                match parseMembers fuel rest5 with
                | some (.obj kvs, rest6) => some (.obj ((key, v) :: kvs), rest6)
                | _ => none
              | c6 :: rest6 =>
                if c6 = rbrace then some (.obj [(key, v)], rest6) else none
              | [] => none
            | none => none
          | _ => none
        | none => none
      else none
    | [] => none

/-- Parse one or more comma-separated array elements followed by a closing
bracket. -/
def parseElems : Nat → Str → Option (JsVal × Str)
  | 0, _ => none
  | fuel + 1, s =>
    match parseVal fuel s with
    | some (v, rest) =>
      match skipJsonWs rest with
      | ',' :: rest2 =>
        match parseElems fuel rest2 with
        | some (.arr vs, rest3) => some (.arr (v :: vs), rest3)
        | _ => none
      | ']' :: rest2 => some (.arr [v], rest2)
      | _ => none
    | none => none

end

/-- Model of the external `JSON.parse` builtin: parse a complete document,
allowing only trailing whitespace.  `none` models a thrown `SyntaxError`
(always caught at the call site in `processStream`). -/
def jsonParse (s : Str) : Option JsVal :=
  match parseVal (2 * s.length + 8) s with
  | some (v, rest) => if skipJsonWs rest = [] then some v else none
  | none => none

/-- One decoded server push: the pair passed to `handleSSEEvent` by the
`data:` branch of `processStream`. -/
structure StreamEvent : Type where
  kind : Str
  payload : JsVal
  deriving Repr

/-- Literal prefix `event:` tested by `line.startsWith("event:")`. -/
def eventTag : Str := "event:".toList

/-- Literal prefix `data:` tested by `line.startsWith("data:")`. -/
def dataTag : Str := "data:".toList

/-- Per-line step of the `for (const line of lines)` loop in
`processStream`: takes the current `currentEvent` value and one fully
terminated line, returns the updated `currentEvent` and the event emitted
to `handleSSEEvent`, if any. -/
def processLine (currentEvent : Str) (line : Str) : Str × Option StreamEvent :=
  if strTrim line = [] then
    ([], none)
  else if strStartsWith eventTag line then
    (strTrim (line.drop 6), none)
  else if strStartsWith dataTag line then
    let dataStr := strTrim (line.drop 5)
    match jsonParse dataStr with
    | some data => (currentEvent, some ⟨currentEvent, data⟩)
    | none => (currentEvent, none)
  else
    (currentEvent, none)

/-- Fold `processLine` over a list of fully terminated lines, collecting
the emitted events in order. -/
def processLines (currentEvent : Str) : List Str → Str × List StreamEvent
  | [] => (currentEvent, [])
  | l :: ls =>
    let r1 := processLine currentEvent l
    let r2 := processLines r1.1 ls
    (r2.1, r1.2.toList ++ r2.2)

/-- The mutable locals of one `processStream` session: `buffer` holds the
unconsumed tail of the text stream, `currentEvent` the most recent
`event:` field value. -/
structure DecoderState : Type where
  buffer : Str
  currentEvent : Str
  deriving Repr

/-- Initial decoder state: `let buffer = ""` and `let currentEvent = ""`. -/
def initDecoder : DecoderState := ⟨[], []⟩

/-- One `reader.read()` iteration of `processStream` with a non-final
chunk: append the chunk to `buffer`, split on newlines, keep the final
segment as the new `buffer` (`buffer = lines.pop() || ""`), and process
every fully terminated line. -/
def processChunk (st : DecoderState) (chunk : Str) : DecoderState × List StreamEvent :=
  let parts := splitNl (st.buffer ++ chunk)
  let newBuffer := parts.getLastD []
  let lines := parts.dropLast
  let r := processLines st.currentEvent lines
  (⟨newBuffer, r.1⟩, r.2)

/-- Run the decoder over a list of chunks from a given state, collecting
all emitted events in order. -/
def runFrom (st : DecoderState) : List Str → DecoderState × List StreamEvent
  | [] => (st, [])
  | c :: cs =>
    let r1 := processChunk st c
    let r2 := runFrom r1.1 cs
    (r2.1, r1.2 ++ r2.2)

/-- Full decode of a chunked stream: start from the initial state, feed
every chunk, and stop at end-of-stream (the `done` branch of
`processStream` discards the remaining `buffer`). -/
def runDecoder (chunks : List Str) : List StreamEvent :=
  (runFrom initDecoder chunks).2

/-- JavaScript truthiness: `undefined`, `null`, `NaN`, `false`, `0` and
the empty string are falsy, everything else is truthy. -/
def truthy : JsVal → Bool
  | .undefined => false
  | .null => false
  | .nan => false
  | .bool b => b
  | .num n => n ≠ 0
  | .str s => s ≠ []
  | .arr _ => true
  | .obj _ => true

/-- JavaScript `a || b`: the left operand if truthy, otherwise the right. -/
def jsOr (a b : JsVal) : JsVal :=
  if truthy a then a else b

/-- The strict comparison `v !== undefined` (negated). -/
def isUndefined : JsVal → Bool
  | .undefined => true
  | _ => false

/-- Pure property lookup underlying `v.k`: objects resolve the last
binding of the key (as `JSON.parse` duplicate keys do), arrays and
strings expose `length`, every other access yields `undefined`. -/
def objField (v : JsVal) (k : Str) : JsVal :=
  match v with
  | .obj kvs => kvs.foldl (fun acc kv => if kv.1 = k then kv.2 else acc) .undefined
  | .arr xs => if k = "length".toList then .num xs.length else .undefined
  | .str s => if k = "length".toList then .num s.length else .undefined
  | _ => .undefined

/-- JavaScript property access `v.k`: throws a `TypeError` (modelled as
`Except.error`) when the receiver is `null` or `undefined`. -/
def jsGet (v : JsVal) (k : Str) : Except Unit JsVal :=
  match v with
  | .null => .error ()
  | .undefined => .error ()
  | _ => .ok (objField v k)

/-- JavaScript `v.includes(needle)` with a string argument: substring
test on strings, element membership on arrays, a thrown `TypeError` on
receivers that have no `includes` method. -/
def jsIncludes (v : JsVal) (needle : Str) : Except Unit Bool :=
  match v with
  | .str s => .ok (strIncludes needle s)
  | .arr xs => .ok (xs.any (fun x => x.beq (.str needle)))
  | _ => .error ()

/-- Characters left unescaped by the external `encodeURIComponent`
builtin. -/
def isUriUnreserved (c : Char) : Bool :=
  ('A' ≤ c && c ≤ 'Z') || ('a' ≤ c && c ≤ 'z') || ('0' ≤ c && c ≤ '9') ||
  c = '-' || c = '_' || c = '.' || c = '!' || c = '~' || c = '*' ||
  c = '(' || c = ')' || c = Char.ofNat 39

/-- Upper-case hexadecimal digit of a value below 16. -/
def hexDigit (n : Nat) : Char :=
  if n < 10 then Char.ofNat ('0'.toNat + n) else Char.ofNat ('A'.toNat + n - 10)

/-- UTF-8 code units of one character. -/
def utf8Bytes (c : Char) : List Nat :=
  let n := c.toNat
  if n < 128 then [n]
  else if n < 2048 then [192 + n / 64, 128 + n % 64]
  else if n < 65536 then [224 + n / 4096, 128 + (n / 64) % 64, 128 + n % 64]
  else [240 + n / 262144, 128 + (n / 4096) % 64, 128 + (n / 64) % 64, 128 + n % 64]

/-- Model of the external `encodeURIComponent` builtin: unreserved
characters pass through, every other character is percent-encoded per
UTF-8 byte. -/
def encodeURIComponent (s : Str) : Str :=
  (s.map (fun c =>
    if isUriUnreserved c then [c]
    else ((utf8Bytes c).map (fun b => ['%', hexDigit (b / 16), hexDigit (b % 16)])).flatten)).flatten

/-- Model of string coercion in template literals, restricted to the
value shapes that reach one in this code (strings and integral numbers);
array rendering is approximated by the empty string and is exercised by
no claim. -/
def jsToDisplay : JsVal → Str
  | .str s => s
  | .num n => intToStr n
  | .nan => "NaN".toList
  | .bool true => "true".toList
  | .bool false => "false".toList
  | .null => "null".toList
  | .undefined => "undefined".toList
  | .arr _ => []
  | .obj _ => "[object Object]".toList

/-- Model of the external `Math.round` builtin on the values that reach
it here: modelled numbers are integral and round to themselves; any
non-numeric argument is approximated as `NaN` (the call site only ever
passes a payload number or the fallback `0`). -/
def mathRound : JsVal → JsVal
  | .num n => .num n
  | _ => .nan

/-- The module constant `API_URL` of src/components/main-app.tsx with
the `NEXT_PUBLIC_API_URL` environment variable unset. -/
def API_URL : Str := "http://localhost:8000".toList

/-- Shape of the `videoInfo` page state set by the metadata branch. -/
structure VideoInfo : Type where
  duration : JsVal
  fps : JsVal
  total_frames : JsVal
  deriving Repr

/-- Shape of the `optimizationInfo` page state. -/
structure OptimizationInfo : Type where
  faceSkip : JsVal
  analysisSkip : JsVal
  compression : JsVal
  deriving Repr

/-- The `AnalysisReport` object built by the `complete` branch
(src/lib/types.ts shape, fields as stored by `handleSSEEvent`). -/
structure AnalysisReport : Type where
  title : Str
  duration : Str
  shots : JsVal
  detectedActors : JsVal
  cinematicPlanes : List JsVal
  shot_types_summary : JsVal
  lighting_summary : JsVal
  emotions_summary : JsVal
  color_analysis_summary : JsVal
  camera_summary : JsVal
  composition_summary : JsVal
  poster_url : JsVal
  histogram_data : JsVal
  camera_timeline : JsVal
  composition_data : JsVal
  deriving Repr

/-- Every piece of page state (React state and refs of `MainApp`)
touched by `handleSSEEvent`, plus the list of alert texts raised. -/
structure PageState : Type where
  status : Str
  currentStep : Str
  report : Option AnalysisReport
  processedFrameUrl : JsVal
  firstFrameUrl : JsVal
  progress : JsVal
  facesDetected : JsVal
  shotsAnalyzed : JsVal
  detectedActors : JsVal
  videoInfo : Option VideoInfo
  connectionStatus : Str
  posterUrl : JsVal
  histogramData : JsVal
  cameraTimeline : JsVal
  compositionData : JsVal
  currentShotType : JsVal
  currentLighting : JsVal
  currentCameraMovement : JsVal
  currentEmotion : JsVal
  optimizationInfo : Option OptimizationInfo
  processingSpeed : JsVal
  estimatedTime : JsVal
  frameCountRef : JsVal
  videoDurationRef : JsVal
  contentTitleRef : Str
  videoInfoReceivedRef : Bool
  alerts : List Str
  deriving Repr

/-- Initial page state, from the `useState`/`useRef` initialisers of
`MainApp`. -/
def initPageState : PageState where
  status := "idle".toList
  currentStep := []
  report := none
  processedFrameUrl := .null
  firstFrameUrl := .null
  progress := .num 0
  facesDetected := .num 0
  shotsAnalyzed := .num 0
  detectedActors := .arr []
  videoInfo := none
  connectionStatus := "Conectando...".toList
  posterUrl := .null
  histogramData := .null
  cameraTimeline := .arr []
  compositionData := .null
  currentShotType := .null
  currentLighting := .null
  currentCameraMovement := .null
  currentEmotion := .null
  optimizationInfo := none
  processingSpeed := .num 0
  estimatedTime := .num 0
  frameCountRef := .num 0
  videoDurationRef := .num 0
  contentTitleRef := []
  videoInfoReceivedRef := false
  alerts := []

/-- The labels of `PROCESSING_STEPS`
(src/components/progress-sidebar.tsx, lines 60 to 74). -/
def PROCESSING_STEPS : List Str :=
  ["Cargando video".toList,
   "Obteniendo reparto de TMDB".toList,
   "Cargando fotos de actores".toList,
   "Inicializando análisis".toList,
   "Detectando rostros".toList,
   "Reconociendo actores".toList,
   "Detectando emociones".toList,
   "Analizando tipos de plano".toList,
   "Analizando composición".toList,
   "Detectando iluminación".toList,
   "Analizando colores".toList,
   "Detectando movimiento de cámara".toList,
   "Generando datos para gráficos".toList,
   "Preparando informe final".toList]

/-- The `stepIndex` update at the end of the frame branch:
`Math.min(Math.floor((data.progress || 0) / 100 * PROCESSING_STEPS.length), PROCESSING_STEPS.length - 1)`
followed by the bounds check and label store.  Integral payload numbers
make the float arithmetic exact, so it is modelled with integer floor
division; a truthy non-numeric progress value yields NaN arithmetic, the
bounds check fails, and no label is stored. -/
def frameStepUpdate (p : JsVal) (st : PageState) : PageState :=
  match jsOr p (.num 0) with
  | .num n =>
    let stepIndex : Int :=
      min ((n * (PROCESSING_STEPS.length : Int)).fdiv 100)
        ((PROCESSING_STEPS.length : Int) - 1)
    if 0 ≤ stepIndex ∧ stepIndex < (PROCESSING_STEPS.length : Int) then
      match PROCESSING_STEPS.get? stepIndex.toNat with
      | some lbl => { st with currentStep := lbl }
      | none => st
    else st
  | _ => st

/-- Property accesses evaluated inside the frame-event `console.log`
call at the top of `handleSSEEvent`; each one throws when `data` is
`null` or `undefined`. -/
def frameLogAccesses (data : JsVal) : Except Unit Unit :=
  jsGet data "frame_number".toList >>= fun _ =>
  jsGet data "frame_data".toList >>= fun _ =>
  jsGet data "faces_detected".toList >>= fun _ =>
  jsGet data "progress".toList >>= fun _ =>
  jsGet data "shot_type".toList >>= fun _ =>
  jsGet data "lighting".toList >>= fun _ =>
  jsGet data "composition".toList >>= fun _ =>
  jsGet data "colors".toList >>= fun _ =>
  jsGet data "camera_movement".toList >>= fun _ =>
  pure ()

/-- The `info` / first `video_info` branch of `handleSSEEvent`: set the
guard flag, store the video metadata with `|| 0` fallbacks, remember the
rounded duration, set the current step, and capture optimisation info
when present. -/
def infoBranch (data : JsVal) (st : PageState) : Except Unit PageState :=
  jsGet data "duration".toList >>= fun duration =>
  jsGet data "fps".toList >>= fun fps =>
  jsGet data "total_frames".toList >>= fun total =>
  let st1 := { st with
    videoInfoReceivedRef := true
    videoInfo := some ⟨jsOr duration (.num 0), jsOr fps (.num 0), jsOr total (.num 0)⟩
    videoDurationRef := mathRound (jsOr duration (.num 0))
    currentStep := "Cargando video".toList }
  jsGet data "optimizations".toList >>= fun opts =>
  if truthy opts then
    jsGet opts "face_detection_skip".toList >>= fun faceSkip =>
    jsGet opts "full_analysis_skip".toList >>= fun analysisSkip =>
    jsGet opts "compression_enabled".toList >>= fun compression =>
    pure { st1 with optimizationInfo := some ⟨faceSkip, analysisSkip, compression⟩ }
  else
    pure st1

/-- The message-matching chain of the `progress` branch: the else-if
cascade over `data.message` substring tests selecting one stage label. -/
def progressMessageStep (message : JsVal) (st : PageState) : Except Unit PageState :=
  jsIncludes message "Video guardado".toList >>= fun b1 =>
  if b1 then pure { st with currentStep := "Cargando video".toList }
  else
    jsIncludes message "Buscando".toList >>= fun b2a =>
    jsIncludes message "TMDB".toList >>= fun b2b =>
    if b2a && b2b then pure { st with currentStep := "Obteniendo reparto de TMDB".toList }
    else
      jsIncludes message "Cargando actor".toList >>= fun b3a =>
      jsIncludes message "Descargando fotos".toList >>= fun b3b =>
      if b3a || b3b then pure { st with currentStep := "Cargando fotos de actores".toList }
      else
        jsIncludes message "encodings".toList >>= fun b4 =>
        if b4 then pure { st with currentStep := "Inicializando análisis".toList }
        else
          jsIncludes message "Procesando frames".toList >>= fun b5a =>
          jsIncludes message "Iniciando análisis".toList >>= fun b5b =>
          jsIncludes message "Analizando video".toList >>= fun b5c =>
          if b5a || b5b || b5c then
            pure { st with currentStep := "Detectando rostros".toList }
          else
            jsIncludes message "Generando".toList >>= fun b6a =>
            jsIncludes message "resultados".toList >>= fun b6b =>
            if b6a || b6b then
              pure { st with currentStep := "Generando datos para gráficos".toList }
            else pure st

/-- The `progress` branch of `handleSSEEvent`: substring-match the
status message against the fixed stage table, then store the numeric
percentage when the field is present. -/
def progressBranch (data : JsVal) (st : PageState) : Except Unit PageState :=
  jsGet data "message".toList >>= fun message =>
  (if truthy message then progressMessageStep message st else pure st) >>= fun st =>
  jsGet data "progress".toList >>= fun p =>
  if isUndefined p then pure st else pure { st with progress := p }

/-- Faces with a truthy `emotion` field
(`data.faces.filter(face => face.emotion)`); a `null` or `undefined`
array element throws. -/
def facesWithEmotion : List JsVal → Except Unit (List JsVal)
  | [] => .ok []
  | f :: fs =>
    jsGet f "emotion".toList >>= fun e =>
    facesWithEmotion fs >>= fun rest =>
    pure (if truthy e then f :: rest else rest)

/-- The emotion names of the filtered faces
(`.map(face => face.emotion.emotion)`). -/
def emotionNames : List JsVal → Except Unit (List JsVal)
  | [] => .ok []
  | f :: fs =>
    jsGet f "emotion".toList >>= fun e =>
    jsGet e "emotion".toList >>= fun name =>
    emotionNames fs >>= fun rest =>
    pure (name :: rest)

/-- The comparison `v > 0` as it occurs in `data.faces.length > 0` and
`emotionsInFrame.length > 0`: true only for positive numbers. -/
def jsGtZero : JsVal → Bool
  | .num n => 0 < n
  | _ => false

/-- The call `data.faces.filter(face => face.emotion)`: a `TypeError` on
a non-array receiver. -/
def jsFilterFaces (v : JsVal) : Except Unit (List JsVal) :=
  match v with
  | .arr xs => facesWithEmotion xs
  | _ => .error ()

/-- The `faces` block of the frame branch: when `data.faces` is truthy
with positive length, filter to faces with an emotion, map to the
emotion names, and store the first one when any exists. -/
def frameFacesStep (faces : JsVal) (st : PageState) : Except Unit PageState :=
  if truthy faces then
    jsGet faces "length".toList >>= fun len =>
    if jsGtZero len then
      jsFilterFaces faces >>= fun filtered =>
      emotionNames filtered >>= fun ems =>
      pure (if jsGtZero (.num ems.length) then
              { st with currentEmotion := ems.headD .undefined }
            else st)
    else pure st
  else pure st

/-- The `frame` branch of `handleSSEEvent`: store the frame image (and
the first frame once), then each metric field when present, the current
analysis fields when truthy, the first detected emotion, and finally the
progress-derived step label. -/
def frameBranch (data : JsVal) (st : PageState) : Except Unit PageState :=
  jsGet data "frame_data".toList >>= fun frameData =>
  (if truthy frameData then
    let st := { st with processedFrameUrl := frameData }
    pure (if truthy st.firstFrameUrl then st else { st with firstFrameUrl := frameData })
  else pure st) >>= fun st =>
  jsGet data "progress".toList >>= fun p =>
  let st := if isUndefined p then st else { st with progress := p }
  jsGet data "faces_detected".toList >>= fun fd =>
  let st := if isUndefined fd then st else { st with facesDetected := fd }
  jsGet data "frame_number".toList >>= fun fn =>
  let st := if isUndefined fn then st else { st with frameCountRef := fn, shotsAnalyzed := fn }
  jsGet data "fps_processing".toList >>= fun fpsP =>
  let st := if isUndefined fpsP then st else { st with processingSpeed := fpsP }
  jsGet data "eta_seconds".toList >>= fun eta =>
  let st := if isUndefined eta then st else { st with estimatedTime := eta }
  jsGet data "shot_type".toList >>= fun shotType =>
  (if truthy shotType then
    jsGet shotType "shot_type".toList >>= fun a =>
    jsGet shotType "type".toList >>= fun b =>
    pure { st with currentShotType := jsOr a b }
  else pure st) >>= fun st =>
  jsGet data "lighting".toList >>= fun lighting =>
  (if truthy lighting then
    jsGet lighting "type".toList >>= fun t =>
    pure { st with currentLighting := t }
  else pure st) >>= fun st =>
  jsGet data "camera_movement".toList >>= fun cm =>
  (if truthy cm then
    jsGet cm "movement".toList >>= fun a =>
    jsGet cm "type".toList >>= fun b =>
    pure { st with currentCameraMovement := jsOr a b }
  else pure st) >>= fun st =>
  jsGet data "faces".toList >>= fun faces =>
  frameFacesStep faces st >>= fun st =>
  jsGet data "composition".toList >>= fun _ =>
  jsGet data "colors".toList >>= fun _ =>
  jsGet data "progress".toList >>= fun p2 =>
  pure (frameStepUpdate p2 st)

/-- The object spread `{...actor, foto_url: x}`: on an object the key is
overwritten in place or appended, on a primitive the spread contributes
no properties. -/
def jsSpreadSet (v : JsVal) (k : Str) (x : JsVal) : JsVal :=
  match v with
  | .obj kvs =>
    if kvs.any (fun kv => decide (kv.1 = k)) then
      .obj (kvs.map (fun kv => if kv.1 = k then (k, x) else kv))
    else
      .obj (kvs ++ [(k, x)])
  | _ => .obj [(k, x)]

/-- The proxy rewrite of one URL value:
`API_URL + "/image-proxy?url=" + encodeURIComponent(u)`. -/
def proxiedUrl (u : JsVal) : Str :=
  API_URL ++ "/image-proxy?url=".toList ++ encodeURIComponent (jsToDisplay u)

/-- The `detected_actors.map` of the `complete` branch: every actor is
copied with `foto_url` replaced by its proxied form when the original
contains `image.tmdb.org`. -/
def proxyActors : List JsVal → Except Unit (List JsVal)
  | [] => .ok []
  | actor :: rest =>
    jsGet actor "foto_url".toList >>= fun foto =>
    jsIncludes foto "image.tmdb.org".toList >>= fun inc =>
    proxyActors rest >>= fun tail =>
    pure (jsSpreadSet actor "foto_url".toList
      (if inc then .str (proxiedUrl foto) else foto) :: tail)

/-- The call `data.detected_actors.map(actor => ...)` of the `complete`
branch: a `TypeError` on a non-array receiver. -/
def jsMapActors (v : JsVal) : Except Unit (List JsVal) :=
  match v with
  | .arr actors => proxyActors actors
  | _ => .error ()

/-- The `complete` branch of `handleSSEEvent`: set the terminal status
fields, store the proxied actor list and poster, capture the chart data,
and build the final report from the raw payload fields. -/
def completeBranch (data : JsVal) (st : PageState) : Except Unit PageState :=
  jsGet data "detected_actors".toList >>= fun detectedActors =>
  jsGet data "shot_types_summary".toList >>= fun shotTypesSummary =>
  jsGet data "lighting_summary".toList >>= fun lightingSummary =>
  jsGet data "emotions_summary".toList >>= fun emotionsSummary =>
  jsGet data "color_analysis_summary".toList >>= fun colorSummary =>
  jsGet data "camera_summary".toList >>= fun cameraSummary =>
  jsGet data "composition_summary".toList >>= fun compositionSummary =>
  jsGet data "histogram_data".toList >>= fun histogramData =>
  jsGet data "camera_timeline".toList >>= fun cameraTimeline =>
  jsGet data "composition_data".toList >>= fun compositionData =>
  jsGet data "poster_url".toList >>= fun posterUrl =>
  let st := { st with
    connectionStatus := "Completado".toList
    status := "completed".toList
    progress := .num 100
    currentStep := "Preparando informe final".toList }
  (if truthy detectedActors then
    jsMapActors detectedActors >>= fun proxied =>
    pure { st with detectedActors := .arr proxied }
  else pure st) >>= fun st =>
  (if truthy posterUrl then
    jsIncludes posterUrl "image.tmdb.org".toList >>= fun isTmdb =>
    pure { st with posterUrl :=
      if isTmdb then .str (proxiedUrl posterUrl) else posterUrl }
  else pure st) >>= fun st =>
  let st := if truthy histogramData then { st with histogramData := histogramData } else st
  let st := if truthy cameraTimeline then { st with cameraTimeline := cameraTimeline } else st
  let st := if truthy compositionData then { st with compositionData := compositionData } else st
  jsGet data "total_frames_processed".toList >>= fun totalFrames =>
  let finalReport : AnalysisReport := {
    title := if st.contentTitleRef ≠ [] then st.contentTitleRef
             else "Video Analizado".toList
    duration := if truthy st.videoDurationRef
                then jsToDisplay st.videoDurationRef ++ "s".toList
                else "N/A".toList
    shots := jsOr totalFrames st.frameCountRef
    detectedActors := jsOr detectedActors (.arr [])
    cinematicPlanes := []
    shot_types_summary := shotTypesSummary
    lighting_summary := lightingSummary
    emotions_summary := emotionsSummary
    color_analysis_summary := colorSummary
    camera_summary := cameraSummary
    composition_summary := compositionSummary
    poster_url := posterUrl
    histogram_data := histogramData
    camera_timeline := cameraTimeline
    composition_data := compositionData }
  pure { st with report := some finalReport }

/-- The `error` branch of `handleSSEEvent`: raise the alert with the
server message (or fallbacks) and revert to idle. -/
def errorBranch (data : JsVal) (st : PageState) : Except Unit PageState :=
  jsGet data "message".toList >>= fun msg =>
  jsGet data "error".toList >>= fun err =>
  pure { st with
    alerts := st.alerts ++
      ["Error: ".toList ++
        jsToDisplay (jsOr (jsOr msg err) (.str "Error desconocido".toList))]
    status := "idle".toList
    connectionStatus := "Error".toList }

/-- The SSE event dispatcher `handleSSEEvent`
(src/components/main-app.tsx, lines 491 to 767): the frame-event log
followed by the five sequential event-type branches. -/
def handleSSEEvent (data : JsVal) (eventType : Str) (st0 : PageState) :
    Except Unit PageState :=
  (if eventType = "frame".toList then frameLogAccesses data else pure ()) >>= fun _ =>
  (if eventType = "info".toList ∨
      (eventType = "video_info".toList ∧ st0.videoInfoReceivedRef = false)
   then infoBranch data st0 else pure st0) >>= fun st1 =>
  (if eventType = "progress".toList then progressBranch data st1 else pure st1) >>= fun st2 =>
  (if eventType = "frame".toList then frameBranch data st2 else pure st2) >>= fun st3 =>
  (if eventType = "complete".toList then completeBranch data st3 else pure st3) >>= fun st4 =>
  if eventType = "error".toList then errorBranch data st4 else pure st4

/-- JavaScript `typeof v === "number"` (true for `NaN` as well). -/
def isNumberType : JsVal → Bool
  | .num _ => true
  | .nan => true
  | _ => false

/-- JavaScript `typeof v === "string"`. -/
def isStringType : JsVal → Bool
  | .str _ => true
  | _ => false

/-- JavaScript `Array.isArray(v)`. -/
def isArrayVal : JsVal → Bool
  | .arr _ => true
  | _ => false

/-- The comparison `v >= 0`: true for non-negative numbers, false for
`NaN` and for every non-numeric value reaching it. -/
def jsGeZero : JsVal → Bool
  | .num n => 0 ≤ n
  | _ => false


/-- Receivers on which `.includes(...)` does not throw: strings, arrays,
or any falsy value (which the guarding truthiness checks skip). -/
def includesSafe : JsVal → Bool
  | .str _ => true
  | .arr _ => true
  | v => !truthy v

/-- The value computed by `jsIncludes` on a safe truthy receiver. -/
def jsIncludesVal (v : JsVal) (needle : Str) : Bool :=
  match v with
  | .str s => strIncludes needle s
  | .arr xs => xs.any (fun x => x.beq (.str needle))
  | _ => false

/-- Safe shapes for `data.faces`: an array of non-null, non-undefined
elements, or any non-array value that is falsy or lacks a positive
numeric `length` (such a value never reaches the `.filter` call). -/
def facesSafe : JsVal → Bool
  | .arr xs => xs.all (fun f => match f with
      | .null => false
      | .undefined => false
      | _ => true)
  | v => !(truthy v && jsGtZero (objField v "length".toList))

/-- Safe shapes for `data.detected_actors`: an array of objects, or any
falsy value. -/
def actorsSafe : JsVal → Bool
  | .arr xs => xs.all (fun a => match a with
      | .obj _ => true
      | _ => false)
  | v => !truthy v

/-- A payload object with any subset of the expected fields absent and
every present field of its expected protocol shape (restricted to the
fields whose shape the dispatcher relies on): `message` and `poster_url`
must support `.includes` when truthy, `faces` must be a well-shaped
array when it has positive length, `detected_actors` must be an array of
objects when truthy. -/
def wellFormedPayload (data : JsVal) : Bool :=
  match data with
  | .obj _ =>
    includesSafe (objField data "message".toList) &&
    facesSafe (objField data "faces".toList) &&
    actorsSafe (objField data "detected_actors".toList) &&
    includesSafe (objField data "poster_url".toList)
  | _ => false

/-- Every present detected actor carries a string `foto_url` — the one
condition the `complete` branch accesses without a guard. -/
def actorsHaveFoto (data : JsVal) : Bool :=
  match objField data "detected_actors".toList with
  | .arr xs => xs.all (fun a => isStringType (objField a "foto_url".toList))
  | _ => true

/-- The render-time filter of `generateColorSchemeChart`
(src/lib/pdf-generator.ts, lines 646 to 654): truthy entry, non-empty
string `hex`, array `rgb` of length at least 3, and the first truthy of
`percentage`, `frequency`, `appearances` (defaulting to `0`) being a
number that is at least 0. -/
def colorSchemeFilterEntry (c : JsVal) : Bool :=
  if !truthy c then false
  else
    let hasHex := isStringType (objField c "hex".toList) &&
      jsGtZero (objField (objField c "hex".toList) "length".toList)
    let hasRgb := isArrayVal (objField c "rgb".toList) &&
      (match objField c "rgb".toList with
       | .arr xs => 3 ≤ xs.length
       | _ => false)
    let freq := jsOr (jsOr (jsOr (objField c "percentage".toList)
      (objField c "frequency".toList)) (objField c "appearances".toList)) (.num 0)
    let hasFreq := isNumberType freq && jsGeZero freq
    hasHex && hasRgb && hasFreq

/-- The colors drawn by `generateColorSchemeChart`:
`dominantColors.filter(...).slice(0, 3)`. -/
def generateColorSchemeColors (dominantColors : List JsVal) : List JsVal :=
  (dominantColors.filter colorSchemeFilterEntry).take 3

/-- The `validColors` filter of `generateNetflixPDF`
(src/lib/pdf-generator.ts, lines 1824 to 1828): truthy entry, non-empty
string `hex`, array `rgb` of length at least 3, and a numeric
`percentage` or `frequency` (`appearances` is not consulted). -/
def validColorsFilterEntry (c : JsVal) : Bool :=
  let hasHex := truthy c && isStringType (objField c "hex".toList) &&
    jsGtZero (objField (objField c "hex".toList) "length".toList)
  let hasRgb := truthy c && isArrayVal (objField c "rgb".toList) &&
    (match objField c "rgb".toList with
     | .arr xs => 3 ≤ xs.length
     | _ => false)
  let hasFreq := truthy c && (isNumberType (objField c "percentage".toList) ||
    isNumberType (objField c "frequency".toList))
  hasHex && hasRgb && hasFreq

/-- The palette rendered by the colour section of `generateNetflixPDF`:
`global_palette.slice(0, 5).filter(...)`. -/
def pdfValidColors (palette : List JsVal) : List JsVal :=
  (palette.take 5).filter validColorsFilterEntry

/-- Modelled from the spec: the validation C8 claims for a colour entry
(a non-empty hex string, a 3-element RGB array, and a numeric share
under one of the legacy field names `percentage`, `frequency`,
`appearances`), written from the claim's words to compare against the
filters the code actually applies. -/
def claimedColorValid (c : JsVal) : Bool :=
  (match objField c "hex".toList with
   | .str s => !s.isEmpty
   | _ => false) &&
  (match objField c "rgb".toList with
   | .arr xs => xs.length = 3
   | _ => false) &&
  (isNumberType (objField c "percentage".toList) ||
   isNumberType (objField c "frequency".toList) ||
   isNumberType (objField c "appearances".toList))

/-- The numeric coercion `v.toFixed(d)` (`actor.similitud.toFixed(0)`,
`freq.toFixed(1)`): a `TypeError` unless the receiver is a number
(`NaN` included); only the throw behaviour is consumed here. -/
def jsToFixed (v : JsVal) : Except Unit Unit :=
  match v with
  | .num _ => .ok ()
  | .nan => .ok ()
  | _ => .error ()

/-- The call chain `report.detectedActors.slice(0, 6)` followed by
`.map(...)`: an array is truncated to its first six entries; a string
survives `.slice` but throws at `.map`, and every other receiver throws
already at `.slice`. -/
def jsSliceMapActors (v : JsVal) : Except Unit (List JsVal) :=
  match v with
  | .arr xs => .ok (xs.take 6)
  | _ => .error ()

/-- The `actorsToShow.map(actor => actor.foto_url ? ...)` pass of the
cast page: one `actor.foto_url` access per entry, throwing on a `null`
or `undefined` entry. -/
def pdfActorImages : List JsVal → Except Unit Unit
  | [] => .ok ()
  | a :: rest =>
    jsGet a "foto_url".toList >>= fun _ =>
    pdfActorImages rest

/-- The per-actor row of the cast page: the `actor.nombre` and
`actor.personaje` accesses and the guarded
`actor.similitud !== undefined && actor.similitud !== null ?
actor.similitud.toFixed(0) : '0'` coercion. -/
def pdfActorRows : List JsVal → Except Unit Unit
  | [] => .ok ()
  | a :: rest =>
    jsGet a "nombre".toList >>= fun _ =>
    jsGet a "personaje".toList >>= fun _ =>
    jsGet a "similitud".toList >>= fun sim =>
    (match sim with
      | .undefined => .ok ()
      | .null => .ok ()
      | v => jsToFixed v) >>= fun _ =>
    pdfActorRows rest

/-- The `validColors.forEach` loop of the colour page: per entry the
coercion `(color.percentage || color.frequency || 0).toFixed(1)`, which
throws when the first truthy of the two share fields is not a number
(reachable through the filter, e.g. `percentage: 0` with a truthy
non-numeric `frequency`). -/
def pdfPaletteStep : List JsVal → Except Unit Unit
  | [] => .ok ()
  | c :: rest =>
    jsToFixed (jsOr (jsOr (objField c "percentage".toList)
      (objField c "frequency".toList)) (.num 0)) >>= fun _ =>
    pdfPaletteStep rest

/-- The repository-originated, payload-coercion operations of the
`generateNetflixPDF` page-drawing body, in source order: the cast page
(`detectedActors.slice(0, 6).map`, per-actor field accesses and
`similitud.toFixed(0)`, behind the `detectedActors && length > 0`
guard) and the colour-palette page (`freq.toFixed(1)` over the
filtered `global_palette`, behind its `Array.isArray` guard).  Pure
canvas drawing, the chart helpers (which catch their own errors and
resolve to an empty image) and the jsPDF layout calls are elided. -/
def pdfBody (report : JsVal) : Except Unit Unit :=
  let detActors := objField report "detectedActors".toList
  (if truthy detActors ∧ jsGtZero (objField detActors "length".toList) = true then
    jsSliceMapActors detActors >>= fun actorsToShow =>
    pdfActorImages actorsToShow >>= fun _ =>
    pdfActorRows actorsToShow
  else pure ()) >>= fun _ =>
  match objField (objField report "color_analysis_summary".toList)
      "global_palette".toList with
  | .arr ps => pdfPaletteStep (pdfValidColors ps)
  | _ => pure ()

/-- Outcome of one `generateNetflixPDF` call: the missing-title `Error`
propagated to the caller, a `TypeError` thrown inside the page-drawing
body and rethrown by the final `catch`, or the document saved under a
filename. -/
inductive PdfOutcome : Type where
  | raised : Str → PdfOutcome
  | threw : PdfOutcome
  | saved : Str → PdfOutcome
  deriving Repr

/-- Control-flow model of `generateNetflixPDF`
(src/lib/pdf-generator.ts, lines 1515 to 2018): the title guard
`if (!report || !report.title) throw new Error(...)` first, then the
fixed page sequence whose repository-originated throw paths are
modelled by `pdfBody`, ending in
`doc.save("CVFlix - " + report.title + ".pdf")`.  `saved` asserts that
`doc.save` is reached barring failures inside the external canvas and
jsPDF library calls, which are elided. -/
def generateNetflixPDF (report : JsVal) : PdfOutcome :=
  if !truthy report || !truthy (objField report "title".toList) then
    .raised "El reporte debe tener al menos un título".toList
  else
    match pdfBody report with
    | .ok _ => .saved ("CVFlix - ".toList ++
        jsToDisplay (objField report "title".toList) ++ ".pdf".toList)
    | .error _ => .threw

/-- Observable result of the sidebar download handler: either a file
download or the generic alert. -/
inductive DownloadResult : Type where
  | downloaded : Str → DownloadResult
  | alerted : Str → DownloadResult
  deriving Repr

/-- The `handleDownloadPDF` handler of src/components/report-sidebar.tsx
(lines 149 to 163): await `generateNetflixPDF`, and surface the generic
alert when it throws (the catch is indiscriminate, so both the
missing-title `Error` and a body `TypeError` alert). -/
def handleDownloadPDF (report : JsVal) : DownloadResult :=
  match generateNetflixPDF report with
  | .saved f => .downloaded f
  | .raised _ => .alerted "Error al generar el PDF. Por favor, intenta de nuevo.".toList
  | .threw => .alerted "Error al generar el PDF. Por favor, intenta de nuevo.".toList

theorem splitNl_ne_nil (s : Str) : splitNl s ≠ [] := by
  induction s with
  | nil => simp [splitNl]
  | cons c cs ih =>
    simp only [splitNl]
    split
    · simp
    · cases h : splitNl cs with
      | nil => simp
      | cons l ls => simp

theorem nl_not_mem_splitNl (s : Str) : ∀ l ∈ splitNl s, '\n' ∉ l := by
  induction s with
  | nil => intro l hl; simp [splitNl] at hl; simp [hl]
  | cons c cs ih =>
    intro l hl
    simp only [splitNl] at hl
    by_cases hc : c = '\n'
    · rw [if_pos hc] at hl
      rcases List.mem_cons.mp hl with h | h
      · simp [h]
      · exact ih l h
    · rw [if_neg hc] at hl
      cases hsp : splitNl cs with
      | nil => exact absurd hsp (splitNl_ne_nil cs)
      | cons p ps =>
        rw [hsp] at hl
        rcases List.mem_cons.mp hl with h | h
        · subst h
          intro hmem
          rcases List.mem_cons.mp hmem with h2 | h2
          · exact hc h2.symm
          · exact ih p (by simp [hsp]) h2
        · exact ih l (by simp [hsp, h])

theorem splitNl_of_no_nl (s : Str) (h : '\n' ∉ s) : splitNl s = [s] := by
  induction s with
  | nil => simp [splitNl]
  | cons c cs ih =>
    have hc : ¬ c = '\n' := fun hh => h (by simp [hh])
    have hcs : '\n' ∉ cs := fun hm => h (List.mem_cons_of_mem c hm)
    simp only [splitNl, if_neg hc, ih hcs]

theorem splitNl_append (x y : Str) :
    splitNl (x ++ y) =
      (splitNl x).dropLast ++ (splitNl y).modifyHead (fun l => (splitNl x).getLastD [] ++ l) := by
  induction x with
  | nil =>
    cases hy : splitNl y with
    | nil => exact absurd hy (splitNl_ne_nil y)
    | cons q qs => simp [splitNl, List.modifyHead, hy]
  | cons c x' ih =>
    simp only [List.cons_append, splitNl, List.append_eq]
    by_cases hc : c = '\n'
    · simp only [if_pos hc]
      rw [ih, List.dropLast_cons_of_ne_nil (splitNl_ne_nil x'), List.getLastD_cons]
      cases hx : splitNl x' with
      | nil => exact absurd hx (splitNl_ne_nil x')
      | cons p ps => simp [List.getLastD_cons]
    · simp only [if_neg hc]
      rw [ih]
      cases hx : splitNl x' with
      | nil => exact absurd hx (splitNl_ne_nil x')
      | cons p ps =>
        cases hy : splitNl y with
        | nil => exact absurd hy (splitNl_ne_nil y)
        | cons q qs =>
          cases ps with
          | nil => simp [List.modifyHead, List.getLastD_cons]
          | cons p2 ps2 =>
            simp [List.modifyHead, List.getLastD_cons,
              List.dropLast_cons_of_ne_nil (List.cons_ne_nil p2 ps2)]

theorem getLastD_ne_nil (l : List Str) (h : l ≠ []) (d : Str) :
    l.getLastD d = l.getLast h := by
  rw [List.getLastD_eq_getLast?, List.getLast?_eq_getLast l h]
  rfl

theorem getLastD_no_nl (s : Str) : '\n' ∉ (splitNl s).getLastD [] := by
  have hmem : (splitNl s).getLastD [] ∈ splitNl s := by
    rw [getLastD_ne_nil _ (splitNl_ne_nil s)]
    exact List.getLast_mem _
  exact nl_not_mem_splitNl s _ hmem

theorem getLastD_append_ne_nil (X Y : List Str) (h : Y ≠ []) :
    (X ++ Y).getLastD [] = Y.getLastD [] := by
  rw [List.getLastD_eq_getLast?, List.getLastD_eq_getLast?,
    List.getLast?_append_of_ne_nil X h]

theorem processLines_append (ev : Str) (l1 l2 : List Str) :
    processLines ev (l1 ++ l2) =
      ((processLines (processLines ev l1).1 l2).1,
        (processLines ev l1).2 ++ (processLines (processLines ev l1).1 l2).2) := by
  induction l1 generalizing ev with
  | nil => simp [processLines]
  | cons l ls ih => simp [processLines, ih, List.append_assoc]

theorem processChunk_append (st : DecoderState) (a b : Str) :
    processChunk st (a ++ b) =
      ((processChunk (processChunk st a).1 b).1,
        (processChunk st a).2 ++ (processChunk (processChunk st a).1 b).2) := by
  have hsplit : splitNl (st.buffer ++ (a ++ b)) =
      (splitNl (st.buffer ++ a)).dropLast ++
        (splitNl b).modifyHead (fun l => (splitNl (st.buffer ++ a)).getLastD [] ++ l) := by
    rw [← List.append_assoc, splitNl_append]
  have hinner : splitNl ((splitNl (st.buffer ++ a)).getLastD [] ++ b) =
      (splitNl b).modifyHead (fun l => (splitNl (st.buffer ++ a)).getLastD [] ++ l) := by
    rw [splitNl_append, splitNl_of_no_nl _ (getLastD_no_nl (st.buffer ++ a))]
    simp
  cases hb : splitNl b with
  | nil => exact absurd hb (splitNl_ne_nil b)
  | cons q qs =>
    simp only [processChunk, hsplit, hinner, hb, List.modifyHead_cons]
    rw [List.dropLast_append_of_ne_nil _ (List.cons_ne_nil _ qs)]
    rw [getLastD_append_ne_nil _ _ (List.cons_ne_nil _ qs)]
    rw [processLines_append]

theorem processChunk_no_nl (st : DecoderState) (t : Str)
    (h1 : '\n' ∉ st.buffer) (h2 : '\n' ∉ t) :
    processChunk st t = (⟨st.buffer ++ t, st.currentEvent⟩, []) := by
  have : '\n' ∉ st.buffer ++ t := by
    intro hm
    rcases List.mem_append.mp hm with h | h
    · exact h1 h
    · exact h2 h
  simp [processChunk, splitNl_of_no_nl _ this, processLines]

theorem processChunk_nil (st : DecoderState) (h : '\n' ∉ st.buffer) :
    processChunk st [] = (st, []) := by
  rw [processChunk_no_nl st [] h (by simp)]
  simp

theorem processChunk_buffer_no_nl (st : DecoderState) (c : Str) :
    '\n' ∉ (processChunk st c).1.buffer := by
  simp only [processChunk]
  exact getLastD_no_nl _

theorem runFrom_eq_flatten (cs : List Str) (st : DecoderState) (h : '\n' ∉ st.buffer) :
    runFrom st cs = processChunk st cs.flatten := by
  induction cs generalizing st with
  | nil => simp [runFrom, processChunk_nil st h]
  | cons c cs ih =>
    simp only [runFrom, List.flatten_cons]
    rw [processChunk_append st c cs.flatten]
    rw [ih _ (processChunk_buffer_no_nl st c)]

/-- C1: chunk-boundary independence of the streaming event decoder.  Any
two ways of cutting the same character sequence into chunks make
`processStream` emit the identical ordered sequence of stream events; in
particular the two example chunks emit exactly one `progress` event whose
payload maps `progress` to `42`. -/
theorem decoder_chunk_boundary_independence :
    (∀ cs1 cs2 : List Str, cs1.flatten = cs2.flatten → runDecoder cs1 = runDecoder cs2) ∧
    runDecoder ["event: progress\ndata: \x7b\"prog".toList, "ress\":42\x7d\n\n".toList] =
      [⟨"progress".toList, .obj [("progress".toList, .num 42)]⟩] := by
  constructor
  · intro cs1 cs2 hjoin
    unfold runDecoder
    rw [runFrom_eq_flatten _ _ (by simp [initDecoder]),
      runFrom_eq_flatten _ _ (by simp [initDecoder]), hjoin]
  · rfl

theorem eventTag_chars : eventTag = ['e', 'v', 'e', 'n', 't', ':'] := rfl

theorem dataTag_chars : dataTag = ['d', 'a', 't', 'a', ':'] := rfl

theorem strTrim_cons_ne_nil (c : Char) (s : Str) (h : isWsChar c = false) :
    strTrim (c :: s) ≠ [] := by
  simp only [strTrim, List.dropWhile_cons, h]
  intro hrev
  have h1 : ((c :: s).reverse.dropWhile isWsChar) = [] := by
    have := congrArg List.reverse hrev
    simpa using this
  rw [List.dropWhile_eq_nil_iff] at h1
  have := h1 c (by simp)
  rw [h] at this
  exact Bool.false_ne_true this

theorem startsWith_exists (pre line : Str) :
    strStartsWith pre line = true → ∃ t, line = pre ++ t := by
  induction pre generalizing line with
  | nil => intro _; exact ⟨line, rfl⟩
  | cons c cs ih =>
    intro h
    cases line with
    | nil => simp [strStartsWith, List.isPrefixOf] at h
    | cons d ds =>
      simp only [strStartsWith, List.isPrefixOf, Bool.and_eq_true, beq_iff_eq] at h
      obtain ⟨hcd, hpre⟩ := h
      obtain ⟨t, ht⟩ := ih ds hpre
      refine ⟨t, ?_⟩
      rw [List.cons_append, ← hcd, ht]

theorem trim_ne_nil_of_tag (line : Str) (tag : Str) (c : Char) (cs : Str)
    (htag : tag = c :: cs) (hws : isWsChar c = false)
    (h : strStartsWith tag line = true) : strTrim line ≠ [] := by
  obtain ⟨t, ht⟩ := startsWith_exists tag line h
  rw [ht, htag, List.cons_append]
  exact strTrim_cons_ne_nil c (cs ++ t) hws

theorem not_event_of_data (line : Str) (h : strStartsWith dataTag line = true) :
    strStartsWith eventTag line = false := by
  obtain ⟨t, ht⟩ := startsWith_exists dataTag line h
  rw [ht, dataTag_chars]
  rfl

/-- C2: per-line decoder semantics of the `for (const line of lines)`
loop: an `event:` line stores the trimmed remainder and emits nothing, a
`data:` line whose trimmed remainder parses emits exactly one event
carrying the current event name, a line that trims to empty resets the
event name, and every other line changes nothing and emits nothing. -/
theorem decoder_per_line_semantics (ev line : Str) :
    (strStartsWith eventTag line = true →
        processLine ev line = (strTrim (line.drop 6), none)) ∧
    (strStartsWith dataTag line = true →
        ∀ v : JsVal, jsonParse (strTrim (line.drop 5)) = some v →
          processLine ev line = (ev, some ⟨ev, v⟩)) ∧
    (strTrim line = [] → processLine ev line = ([], none)) ∧
    (strTrim line ≠ [] → strStartsWith eventTag line = false →
        strStartsWith dataTag line = false → processLine ev line = (ev, none)) := by
  refine ⟨?_, ?_, ?_, ?_⟩
  · intro he
    rw [processLine, if_neg (trim_ne_nil_of_tag line eventTag 'e' "vent:".toList rfl rfl he),
      if_pos he]
  · intro hd v hv
    rw [processLine, if_neg (trim_ne_nil_of_tag line dataTag 'd' "ata:".toList rfl rfl hd)]
    rw [not_event_of_data line hd]
    simp only [Bool.false_eq_true, if_false, if_pos hd, hv]
  · intro h0
    rw [processLine, if_pos h0]
  · intro h0 he hd
    rw [processLine, if_neg h0, he, hd]
    simp

/-- C3: malformed-payload tolerance.  A `data:` line whose trimmed
remainder fails JSON parsing emits no event and leaves the decoder state
alone, so the whole stream decodes exactly as if the malformed line were
absent. -/
theorem decoder_malformed_payload_tolerance (ev : Str) (ls1 ls2 : List Str) (bad : Str)
    (hd : strStartsWith dataTag bad = true)
    (hj : jsonParse (strTrim (bad.drop 5)) = none) :
    processLines ev (ls1 ++ bad :: ls2) = processLines ev (ls1 ++ ls2) := by
  have hline : ∀ e, processLine e bad = (e, none) := by
    intro e
    rw [processLine, if_neg (trim_ne_nil_of_tag bad dataTag 'd' "ata:".toList rfl rfl hd),
      not_event_of_data bad hd]
    simp only [Bool.false_eq_true, if_false, if_pos hd, hj]
  rw [processLines_append, processLines_append]
  have hstep : ∀ e, processLines e (bad :: ls2) = processLines e ls2 := by
    intro e
    simp only [processLines, hline e, Option.toList_none, List.nil_append]
  rw [hstep]

/-- C4: end-of-stream discards the unterminated tail.  If the
concatenated stream text ends in a newline-free fragment `t`, the decode
of the chunked stream equals the decode of the text without `t`: the
buffered fragment contributes zero events and is never flushed. -/
theorem decoder_eos_discards_tail (cs : List Str) (s t : Str) (hsplit : cs.flatten = s ++ t)
    (hnl : '\n' ∉ t) :
    runDecoder cs = runDecoder [s] := by
  unfold runDecoder
  rw [runFrom_eq_flatten _ _ (by simp [initDecoder]), hsplit,
    processChunk_append initDecoder s t,
    processChunk_no_nl (processChunk initDecoder s).1 t
      (processChunk_buffer_no_nl initDecoder s) hnl]
  simp [runFrom]

/-- Closed witness for C1: the two-chunk example split and the unsplit
stream decode to the same event list. -/
theorem decoder_chunk_boundary_independence_witness :
    runDecoder ["event: progress\ndata: \x7b\"prog".toList, "ress\":42\x7d\n\n".toList] =
      runDecoder ["event: progress\ndata: \x7b\"progress\":42\x7d\n\n".toList] :=
  decoder_chunk_boundary_independence.1 _ _ (by rfl)

/-- Closed witness for C2: the `event:` branch and the `data:` branch at
concrete lines. -/
theorem decoder_per_line_semantics_witness :
    processLine [] "event: progress".toList =
        (strTrim ("event: progress".toList.drop 6), none) ∧
    processLine "progress".toList "data: \x7b\"x\":1\x7d".toList =
        ("progress".toList,
          some ⟨"progress".toList, .obj [("x".toList, .num 1)]⟩) :=
  ⟨(decoder_per_line_semantics [] "event: progress".toList).1 rfl,
    (decoder_per_line_semantics "progress".toList "data: \x7b\"x\":1\x7d".toList).2.1
      rfl (.obj [("x".toList, .num 1)]) rfl⟩

/-- Closed witness for C3: inserting the line `data: \x7bmalformed json`
between two well-formed lines changes nothing. -/
theorem decoder_malformed_payload_tolerance_witness :
    processLines []
        (["event: progress".toList] ++ "data: \x7bmalformed json".toList ::
          ["data: \x7b\"progress\":42\x7d".toList]) =
      processLines []
        (["event: progress".toList] ++ ["data: \x7b\"progress\":42\x7d".toList]) :=
  decoder_malformed_payload_tolerance [] _ _ _ rfl rfl

/-- Closed witness for C4: a stream that ends right after a `data:` line
with no trailing newline decodes as if the dangling line were absent. -/
theorem decoder_eos_discards_tail_witness :
    runDecoder ["event: progress\ndata: \x7b\"progress\":42\x7d".toList] =
      runDecoder ["event: progress\n".toList] :=
  decoder_eos_discards_tail _ "event: progress\n".toList _ rfl (by decide)


theorem bind_ok_unit {α β : Type} (a : α) (f : α → Except Unit β) :
    (Except.ok a : Except Unit α) >>= f = f a := rfl

theorem pure_eq_ok {α : Type} (a : α) : (pure a : Except Unit α) = Except.ok a := rfl

theorem exists_ok_bind {α β : Type} {ma : Except Unit α} {f : α → Except Unit β}
    (h1 : ∃ a, ma = .ok a) (h2 : ∀ a, ma = .ok a → ∃ b, f a = .ok b) :
    ∃ b, ma >>= f = .ok b := by
  obtain ⟨a, ha⟩ := h1
  obtain ⟨b, hb⟩ := h2 a ha
  exact ⟨b, by rw [ha, bind_ok_unit, hb]⟩

theorem jsGet_obj (kvs : List (Str × JsVal)) (k : Str) :
    jsGet (.obj kvs) k = .ok (objField (.obj kvs) k) := rfl

theorem jsGet_of_truthy (v : JsVal) (k : Str) (h : truthy v = true) :
    jsGet v k = .ok (objField v k) := by
  cases v with
  | null => simp [truthy] at h
  | undefined => simp [truthy] at h
  | _ => rfl

theorem jsIncludes_safe (v : JsVal) (needle : Str) (h : includesSafe v = true)
    (htr : truthy v = true) : jsIncludes v needle = .ok (jsIncludesVal v needle) := by
  cases v with
  | str s => rfl
  | arr xs => rfl
  | undefined => simp [truthy] at htr
  | null => simp [truthy] at htr
  | nan => simp [truthy] at htr
  | bool b => simp [includesSafe, truthy] at h; simp [truthy, h] at htr
  | num n => simp [includesSafe, truthy] at h; simp [truthy, h] at htr
  | obj kvs => simp [includesSafe, truthy] at h

theorem jsIncludes_str (s : Str) (needle : Str) :
    jsIncludes (.str s) needle = .ok (strIncludes needle s) := rfl

theorem frameLogAccesses_ok (kvs : List (Str × JsVal)) :
    frameLogAccesses (.obj kvs) = .ok () := rfl

theorem errorBranch_ok (kvs : List (Str × JsVal)) (st : PageState) :
    ∃ s, errorBranch (.obj kvs) st = .ok s := ⟨_, rfl⟩

theorem infoBranch_ok (kvs : List (Str × JsVal)) (st : PageState) :
    ∃ s, infoBranch (.obj kvs) st = .ok s := by
  unfold infoBranch
  simp only [jsGet_obj, bind_ok_unit]
  split
  · rename_i htr
    simp only [jsGet_of_truthy _ _ htr, bind_ok_unit]
    exact ⟨_, rfl⟩
  · exact ⟨_, rfl⟩

theorem progressMessageStep_ok (message : JsVal) (st : PageState)
    (hm : includesSafe message = true) (htr : truthy message = true) :
    ∃ s, progressMessageStep message st = .ok s := by
  unfold progressMessageStep
  simp only [jsIncludes_safe _ _ hm htr, bind_ok_unit]
  repeat' split
  all_goals exact ⟨_, rfl⟩

theorem progressBranch_ok (kvs : List (Str × JsVal)) (st : PageState)
    (hm : includesSafe (objField (.obj kvs) "message".toList) = true) :
    ∃ s, progressBranch (.obj kvs) st = .ok s := by
  unfold progressBranch
  refine exists_ok_bind ⟨_, jsGet_obj _ _⟩ ?_
  intro message hmsg
  rw [jsGet_obj] at hmsg
  injection hmsg with hmsg
  subst hmsg
  refine exists_ok_bind ?_ ?_
  · split
    · exact progressMessageStep_ok _ _ hm (by assumption)
    · exact ⟨_, rfl⟩
  · intro s1 _
    refine exists_ok_bind ⟨_, jsGet_obj _ _⟩ ?_
    intro p _
    split
    · exact ⟨_, rfl⟩
    · exact ⟨_, rfl⟩

theorem facesWithEmotion_ok (xs : List JsVal)
    (h : ∀ f ∈ xs, f ≠ .null ∧ f ≠ .undefined) :
    ∃ l, facesWithEmotion xs = .ok l ∧
      ∀ f ∈ l, f ∈ xs ∧ truthy (objField f "emotion".toList) = true := by
  induction xs with
  | nil => exact ⟨[], rfl, by simp⟩
  | cons f fs ih =>
    obtain ⟨h1, h2⟩ := h f (List.mem_cons_self f fs)
    obtain ⟨l, hl, hprop⟩ := ih (fun g hg => h g (List.mem_cons_of_mem f hg))
    have hget : jsGet f "emotion".toList = .ok (objField f "emotion".toList) := by
      cases f <;> first | rfl | exact absurd rfl h1 | exact absurd rfl h2
    refine ⟨if truthy (objField f "emotion".toList) then f :: l else l, ?_, ?_⟩
    · simp only [facesWithEmotion, hget, hl, bind_ok_unit]
      rfl
    · intro g hg
      by_cases htr : truthy (objField f "emotion".toList) = true
      · rw [if_pos htr] at hg
        rcases List.mem_cons.mp hg with hgf | hgl
        · subst hgf; exact ⟨List.mem_cons_self g fs, htr⟩
        · obtain ⟨hm, he⟩ := hprop g hgl
          exact ⟨List.mem_cons_of_mem f hm, he⟩
      · rw [if_neg htr] at hg
        obtain ⟨hm, he⟩ := hprop g hg
        exact ⟨List.mem_cons_of_mem f hm, he⟩

theorem emotionNames_ok (l : List JsVal)
    (h : ∀ f ∈ l, (f ≠ .null ∧ f ≠ .undefined) ∧
      truthy (objField f "emotion".toList) = true) :
    ∃ ns, emotionNames l = .ok ns := by
  induction l with
  | nil => exact ⟨[], rfl⟩
  | cons f fs ih =>
    obtain ⟨⟨h1, h2⟩, htr⟩ := h f (List.mem_cons_self f fs)
    obtain ⟨ns, hns⟩ := ih (fun g hg => h g (List.mem_cons_of_mem f hg))
    have hget : jsGet f "emotion".toList = .ok (objField f "emotion".toList) := by
      cases f <;> first | rfl | exact absurd rfl h1 | exact absurd rfl h2
    refine ⟨objField (objField f "emotion".toList) "emotion".toList :: ns, ?_⟩
    simp only [emotionNames, hget, jsGet_of_truthy _ _ htr, hns, bind_ok_unit]
    rfl

theorem frameFacesStep_ok (faces : JsVal) (st : PageState)
    (hsafe : facesSafe faces = true) :
    ∃ s, frameFacesStep faces st = .ok s := by
  unfold frameFacesStep
  by_cases htr : truthy faces = true
  · rw [if_pos htr]
    refine exists_ok_bind ⟨_, jsGet_of_truthy _ _ htr⟩ ?_
    intro len hlen
    rw [jsGet_of_truthy _ _ htr] at hlen
    injection hlen with hlen
    subst hlen
    by_cases hgt : jsGtZero (objField faces "length".toList) = true
    · rw [if_pos hgt]
      cases faces with
      | arr xs =>
        have helem : ∀ f ∈ xs, f ≠ JsVal.null ∧ f ≠ JsVal.undefined := by
          intro f hf
          have := (List.all_eq_true.mp (by simpa [facesSafe] using hsafe)) f hf
          cases f <;> simp_all
        obtain ⟨l, hl, hprop⟩ := facesWithEmotion_ok xs helem
        obtain ⟨ns, hns⟩ := emotionNames_ok l (fun f hf =>
          ⟨helem f (hprop f hf).1, (hprop f hf).2⟩)
        rw [show jsFilterFaces (JsVal.arr xs) = facesWithEmotion xs from rfl,
          hl, bind_ok_unit, hns, bind_ok_unit]
        exact ⟨_, rfl⟩
      | null => simp [truthy] at htr
      | undefined => simp [truthy] at htr
      | nan => simp [truthy] at htr
      | bool b =>
        exfalso
        simp only [facesSafe, Bool.not_eq_true', Bool.and_eq_false_iff] at hsafe
        rcases hsafe with h | h
        · rw [htr] at h; cases h
        · rw [hgt] at h; cases h
      | num n =>
        exfalso
        simp only [facesSafe, Bool.not_eq_true', Bool.and_eq_false_iff] at hsafe
        rcases hsafe with h | h
        · rw [htr] at h; cases h
        · rw [hgt] at h; cases h
      | str s =>
        exfalso
        simp only [facesSafe, Bool.not_eq_true', Bool.and_eq_false_iff] at hsafe
        rcases hsafe with h | h
        · rw [htr] at h; cases h
        · rw [hgt] at h; cases h
      | obj kvs =>
        exfalso
        simp only [facesSafe, Bool.not_eq_true', Bool.and_eq_false_iff] at hsafe
        rcases hsafe with h | h
        · rw [htr] at h; cases h
        · rw [hgt] at h; cases h
    · rw [if_neg hgt]
      exact ⟨_, rfl⟩
  · rw [if_neg htr]
    exact ⟨_, rfl⟩

theorem objField_foldl_append (kvs : List (Str × JsVal)) (k : Str) (x : JsVal) (acc : JsVal) :
    (kvs ++ [(k, x)]).foldl (fun acc kv => if kv.1 = k then kv.2 else acc) acc = x := by
  rw [List.foldl_append]
  simp

theorem objField_foldl_map (kvs : List (Str × JsVal)) (k : Str) (x : JsVal) (acc : JsVal) :
    (kvs.map (fun kv => if kv.1 = k then (k, x) else kv)).foldl
      (fun acc kv => if kv.1 = k then kv.2 else acc) acc
    = if kvs.any (fun kv => decide (kv.1 = k)) then x else acc := by
  induction kvs generalizing acc with
  | nil => simp
  | cons kv rest ih =>
    by_cases hk : kv.1 = k
    · have hmap : ((kv :: rest).map fun kv => if kv.1 = k then (k, x) else kv) =
          (k, x) :: (rest.map fun kv => if kv.1 = k then (k, x) else kv) := by
        simp [hk]
      have hany : ((kv :: rest).any fun kv => decide (kv.1 = k)) = true := by
        simp [hk]
      rw [hmap, List.foldl_cons, hany, if_pos rfl, ih]
      split <;> rfl
    · have hmap : ((kv :: rest).map fun kv => if kv.1 = k then (k, x) else kv) =
          kv :: (rest.map fun kv => if kv.1 = k then (k, x) else kv) := by
        simp [hk]
      have hany : ((kv :: rest).any fun kv => decide (kv.1 = k)) =
          (rest.any fun kv => decide (kv.1 = k)) := by
        simp [hk]
      rw [hmap, List.foldl_cons, hany, ih]
      split
      · rfl
      · simp [hk]

theorem objField_obj (kvs : List (Str × JsVal)) (k : Str) :
    objField (.obj kvs) k =
      kvs.foldl (fun acc kv => if kv.1 = k then kv.2 else acc) .undefined := rfl

theorem objField_spreadSet (a : JsVal) (k : Str) (x : JsVal) :
    objField (jsSpreadSet a k x) k = x := by
  have hsingle : objField (.obj [(k, x)]) k = x := by
    rw [objField_obj]
    simp
  cases a with
  | obj kvs =>
    by_cases hany : (kvs.any fun kv => decide (kv.1 = k)) = true
    · rw [show jsSpreadSet (.obj kvs) k x =
          .obj (kvs.map (fun kv => if kv.1 = k then (k, x) else kv)) from by
            simp [jsSpreadSet, hany]]
      rw [objField_obj, objField_foldl_map, if_pos hany]
    · rw [show jsSpreadSet (.obj kvs) k x = .obj (kvs ++ [(k, x)]) from by
          simp [jsSpreadSet, hany]]
      rw [objField_obj, objField_foldl_append]
  | undefined => exact hsingle
  | null => exact hsingle
  | nan => exact hsingle
  | bool b => exact hsingle
  | num n => exact hsingle
  | str s => exact hsingle
  | arr xs => exact hsingle

theorem proxyActors_spec (actors : List JsVal)
    (h1 : ∀ a ∈ actors, a ≠ .null ∧ a ≠ .undefined)
    (h2 : ∀ a ∈ actors, ∃ u, objField a "foto_url".toList = .str u) :
    ∃ l, proxyActors actors = .ok l ∧
      List.Forall₂ (fun a b => ∀ u, objField a "foto_url".toList = .str u →
        objField b "foto_url".toList =
          (if strIncludes "image.tmdb.org".toList u
           then JsVal.str (API_URL ++ "/image-proxy?url=".toList ++ encodeURIComponent u)
           else JsVal.str u)) actors l := by
  induction actors with
  | nil => exact ⟨[], rfl, List.Forall₂.nil⟩
  | cons a rest ih =>
    obtain ⟨ha1, ha2⟩ := h1 a (List.mem_cons_self a rest)
    obtain ⟨u, hu⟩ := h2 a (List.mem_cons_self a rest)
    obtain ⟨l, hl, hrel⟩ := ih (fun b hb => h1 b (List.mem_cons_of_mem a hb))
      (fun b hb => h2 b (List.mem_cons_of_mem a hb))
    have hget : jsGet a "foto_url".toList = .ok (objField a "foto_url".toList) := by
      cases a <;> first | rfl | exact absurd rfl ha1 | exact absurd rfl ha2
    refine ⟨jsSpreadSet a "foto_url".toList
        (if strIncludes "image.tmdb.org".toList u then JsVal.str (proxiedUrl (JsVal.str u))
         else JsVal.str u) :: l, ?_, ?_⟩
    · simp only [proxyActors, hget, hu, jsIncludes_str, hl, bind_ok_unit]
      rfl
    · refine List.Forall₂.cons ?_ hrel
      intro u2 hu2
      rw [hu] at hu2
      injection hu2 with hu2
      subst hu2
      rw [objField_spreadSet]
      rfl

theorem frameBranch_ok (kvs : List (Str × JsVal)) (st : PageState)
    (hfaces : facesSafe (objField (.obj kvs) "faces".toList) = true) :
    ∃ s, frameBranch (.obj kvs) st = .ok s := by
  unfold frameBranch
  refine exists_ok_bind ⟨_, jsGet_obj _ _⟩ ?_
  intro frameData _
  refine exists_ok_bind ?_ ?_
  · split <;> exact ⟨_, rfl⟩
  · intro st1 _
    refine exists_ok_bind ⟨_, jsGet_obj _ _⟩ ?_
    intro p _
    refine exists_ok_bind ⟨_, jsGet_obj _ _⟩ ?_
    intro fd _
    refine exists_ok_bind ⟨_, jsGet_obj _ _⟩ ?_
    intro fn _
    refine exists_ok_bind ⟨_, jsGet_obj _ _⟩ ?_
    intro fpsP _
    refine exists_ok_bind ⟨_, jsGet_obj _ _⟩ ?_
    intro eta _
    refine exists_ok_bind ⟨_, jsGet_obj _ _⟩ ?_
    intro shotType hshot
    rw [jsGet_obj] at hshot
    injection hshot with hshot
    subst hshot
    refine exists_ok_bind ?_ ?_
    · split
      · rename_i htr
        simp only [jsGet_of_truthy _ _ htr, bind_ok_unit]
        exact ⟨_, rfl⟩
      · exact ⟨_, rfl⟩
    · intro st2 _
      refine exists_ok_bind ⟨_, jsGet_obj _ _⟩ ?_
      intro lighting hlight
      rw [jsGet_obj] at hlight
      injection hlight with hlight
      subst hlight
      refine exists_ok_bind ?_ ?_
      · split
        · rename_i htr
          simp only [jsGet_of_truthy _ _ htr, bind_ok_unit]
          exact ⟨_, rfl⟩
        · exact ⟨_, rfl⟩
      · intro st3 _
        refine exists_ok_bind ⟨_, jsGet_obj _ _⟩ ?_
        intro cm hcm
        rw [jsGet_obj] at hcm
        injection hcm with hcm
        subst hcm
        refine exists_ok_bind ?_ ?_
        · split
          · rename_i htr
            simp only [jsGet_of_truthy _ _ htr, bind_ok_unit]
            exact ⟨_, rfl⟩
          · exact ⟨_, rfl⟩
        · intro st4 _
          refine exists_ok_bind ⟨_, jsGet_obj _ _⟩ ?_
          intro faces hfv
          rw [jsGet_obj] at hfv
          injection hfv with hfv
          subst hfv
          refine exists_ok_bind (frameFacesStep_ok _ _ hfaces) ?_
          intro st5 _
          refine exists_ok_bind ⟨_, jsGet_obj _ _⟩ ?_
          intro c1 _
          refine exists_ok_bind ⟨_, jsGet_obj _ _⟩ ?_
          intro c2 _
          refine exists_ok_bind ⟨_, jsGet_obj _ _⟩ ?_
          intro p2 _
          exact ⟨_, rfl⟩

theorem jsMapActors_arr (l : List JsVal) : jsMapActors (.arr l) = proxyActors l := rfl

set_option maxHeartbeats 1600000 in
theorem completeBranch_spec (kvs : List (Str × JsVal)) (st : PageState)
    (hact : actorsSafe (objField (.obj kvs) "detected_actors".toList) = true)
    (hfoto : actorsHaveFoto (.obj kvs) = true)
    (hposter : includesSafe (objField (.obj kvs) "poster_url".toList) = true) :
    ∃ s2, completeBranch (.obj kvs) st = .ok s2 ∧
      (∀ actors, objField (.obj kvs) "detected_actors".toList = .arr actors →
        ∃ l, s2.detectedActors = .arr l ∧
          List.Forall₂ (fun a b => ∀ u, objField a "foto_url".toList = .str u →
            objField b "foto_url".toList =
              (if strIncludes "image.tmdb.org".toList u
               then JsVal.str (API_URL ++ "/image-proxy?url=".toList ++ encodeURIComponent u)
               else JsVal.str u)) actors l) ∧
      (∀ u, objField (.obj kvs) "poster_url".toList = .str u → u ≠ [] →
        s2.posterUrl = (if strIncludes "image.tmdb.org".toList u
          then JsVal.str (API_URL ++ "/image-proxy?url=".toList ++ encodeURIComponent u)
          else JsVal.str u)) := by
  unfold completeBranch
  simp only [jsGet_obj, bind_ok_unit]
  by_cases htrD : truthy (objField (JsVal.obj kvs) "detected_actors".toList) = true
  · cases hD : objField (JsVal.obj kvs) "detected_actors".toList with
    | arr actors =>
      rw [hD] at htrD hact
      have h2 : actors.all (fun a => isStringType (objField a "foto_url".toList)) = true := by
        have h := hfoto
        unfold actorsHaveFoto at h
        rw [hD] at h
        exact h
      have hallA : actors.all (fun a => match a with
          | JsVal.obj _ => true
          | _ => false) = true := hact
      have hobjs : ∀ a ∈ actors, a ≠ JsVal.null ∧ a ≠ JsVal.undefined := by
        intro a ha
        have h := List.all_eq_true.mp hallA a ha
        cases a with
        | obj o => exact ⟨by simp, by simp⟩
        | null => exact absurd h (by decide)
        | undefined => exact absurd h (by decide)
        | nan => exact absurd h (by decide)
        | bool b => exact absurd h (by simp)
        | num n => exact absurd h (by simp)
        | str s => exact absurd h (by simp)
        | arr xs => exact absurd h (by simp)
      have hstr : ∀ a ∈ actors, ∃ u, objField a "foto_url".toList = JsVal.str u := by
        intro a ha
        have h := List.all_eq_true.mp h2 a ha
        cases hv : objField a "foto_url".toList <;> rw [hv] at h <;>
          simp [isStringType] at h
        · exact ⟨_, rfl⟩
      obtain ⟨l, hl, hrel⟩ := proxyActors_spec actors hobjs hstr
      simp only [if_pos htrD, jsMapActors_arr, hl, pure_eq_ok, bind_ok_unit]
      by_cases htrP : truthy (objField (JsVal.obj kvs) "poster_url".toList) = true
      · simp only [if_pos htrP, jsIncludes_safe _ _ hposter htrP, pure_eq_ok, bind_ok_unit]
        refine ⟨_, rfl, ?_, ?_⟩
        · intro actors2 hact2
          injection hact2 with hact2
          subst hact2
          refine ⟨l, ?_, hrel⟩
          repeat' split
          all_goals rfl
        · intro u hu _
          rw [hu]
          simp only [jsIncludesVal]
          repeat' split
          all_goals rfl
      · simp only [if_neg htrP, pure_eq_ok, bind_ok_unit]
        refine ⟨_, rfl, ?_, ?_⟩
        · intro actors2 hact2
          injection hact2 with hact2
          subst hact2
          refine ⟨l, ?_, hrel⟩
          repeat' split
          all_goals rfl
        · intro u hu hne
          exfalso
          rw [hu] at htrP
          simp [truthy, hne] at htrP
    | null => rw [hD] at htrD; exact absurd htrD (by decide)
    | undefined => rw [hD] at htrD; exact absurd htrD (by decide)
    | nan => rw [hD] at htrD; exact absurd htrD (by decide)
    | bool b =>
      exfalso
      rw [hD] at htrD hact
      simp only [actorsSafe, Bool.not_eq_true'] at hact
      rw [htrD] at hact
      cases hact
    | num n =>
      exfalso
      rw [hD] at htrD hact
      simp only [actorsSafe, Bool.not_eq_true'] at hact
      rw [htrD] at hact
      cases hact
    | str s =>
      exfalso
      rw [hD] at htrD hact
      simp only [actorsSafe, Bool.not_eq_true'] at hact
      rw [htrD] at hact
      cases hact
    | obj okvs =>
      exfalso
      rw [hD] at htrD hact
      simp only [actorsSafe, Bool.not_eq_true'] at hact
      rw [htrD] at hact
      cases hact
  · simp only [if_neg htrD, pure_eq_ok, bind_ok_unit]
    by_cases htrP : truthy (objField (JsVal.obj kvs) "poster_url".toList) = true
    · simp only [if_pos htrP, jsIncludes_safe _ _ hposter htrP, pure_eq_ok, bind_ok_unit]
      refine ⟨_, rfl, ?_, ?_⟩
      · intro actors2 hact2
        rw [hact2] at htrD
        simp [truthy] at htrD
      · intro u hu _
        rw [hu]
        simp only [jsIncludesVal]
        repeat' split
        all_goals rfl
    · simp only [if_neg htrP, pure_eq_ok, bind_ok_unit]
      refine ⟨_, rfl, ?_, ?_⟩
      · intro actors2 hact2
        rw [hact2] at htrD
        simp [truthy] at htrD
      · intro u hu hne
        exfalso
        rw [hu] at htrP
        simp [truthy, hne] at htrP

theorem infoBranch_spec (kvs : List (Str × JsVal)) (st : PageState) :
    ∃ s, infoBranch (.obj kvs) st = .ok s ∧
      s.videoInfoReceivedRef = true ∧
      s.videoInfo = some ⟨jsOr (objField (.obj kvs) "duration".toList) (.num 0),
        jsOr (objField (.obj kvs) "fps".toList) (.num 0),
        jsOr (objField (.obj kvs) "total_frames".toList) (.num 0)⟩ := by
  unfold infoBranch
  simp only [jsGet_obj, bind_ok_unit]
  split
  · rename_i htr
    simp only [jsGet_of_truthy _ _ htr, bind_ok_unit]
    exact ⟨_, rfl, rfl, rfl⟩
  · exact ⟨_, rfl, rfl, rfl⟩

theorem dispatcher_skip (data : JsVal) (st : PageState) (kind : Str)
    (h1 : ¬ kind = "info".toList)
    (h2 : ¬ (kind = "video_info".toList ∧ st.videoInfoReceivedRef = false))
    (h3 : ¬ kind = "progress".toList) (h4 : ¬ kind = "frame".toList)
    (h5 : ¬ kind = "complete".toList) (h6 : ¬ kind = "error".toList) :
    handleSSEEvent data kind st = .ok st := by
  unfold handleSSEEvent
  have hinfo : ¬ (kind = "info".toList ∨
      (kind = "video_info".toList ∧ st.videoInfoReceivedRef = false)) := by
    rintro (h | h)
    · exact h1 h
    · exact h2 h
  simp only [if_neg h3, if_neg h4, if_neg h5, if_neg h6, if_neg hinfo,
    pure_eq_ok, bind_ok_unit]

/-- C6 (amended): for every event kind and every payload object whose
present fields have their expected protocol shapes, the dispatcher
completes without raising — except that a `complete` event additionally
requires every present detected actor to carry a string `foto_url`, the
one field accessed without a guard. -/
theorem dispatcher_no_throw_general (kind : Str) (data : JsVal) (st : PageState)
    (hwf : wellFormedPayload data = true)
    (hfoto : kind = "complete".toList → actorsHaveFoto data = true) :
    ∃ s2, handleSSEEvent data kind st = .ok s2 := by
  cases data with
  | obj kvs =>
    have hconj : (includesSafe (objField (.obj kvs) "message".toList) &&
        facesSafe (objField (.obj kvs) "faces".toList) &&
        actorsSafe (objField (.obj kvs) "detected_actors".toList) &&
        includesSafe (objField (.obj kvs) "poster_url".toList)) = true := hwf
    simp only [Bool.and_eq_true] at hconj
    obtain ⟨⟨⟨hmsg, hfaces⟩, hacts⟩, hpost⟩ := hconj
    unfold handleSSEEvent
    refine exists_ok_bind ?_ ?_
    · split
      · exact ⟨_, frameLogAccesses_ok kvs⟩
      · exact ⟨_, rfl⟩
    · intro u _
      refine exists_ok_bind ?_ ?_
      · split
        · obtain ⟨s, hs, -, -⟩ := infoBranch_spec kvs st
          exact ⟨s, hs⟩
        · exact ⟨_, rfl⟩
      · intro s1 _
        refine exists_ok_bind ?_ ?_
        · split
          · exact progressBranch_ok kvs s1 hmsg
          · exact ⟨_, rfl⟩
        · intro s2 _
          refine exists_ok_bind ?_ ?_
          · split
            · exact frameBranch_ok kvs s2 hfaces
            · exact ⟨_, rfl⟩
          · intro s3 _
            refine exists_ok_bind ?_ ?_
            · split
              · rename_i hk
                obtain ⟨s, hs, -, -⟩ := completeBranch_spec kvs s3 hacts (hfoto hk) hpost
                exact ⟨s, hs⟩
              · exact ⟨_, rfl⟩
            · intro s4 _
              split
              · exact errorBranch_ok kvs s4
              · exact ⟨_, rfl⟩
  | undefined => exact Bool.noConfusion hwf
  | null => exact Bool.noConfusion hwf
  | nan => exact Bool.noConfusion hwf
  | bool b => exact Bool.noConfusion hwf
  | num n => exact Bool.noConfusion hwf
  | str s => exact Bool.noConfusion hwf
  | arr xs => exact Bool.noConfusion hwf

theorem dispatcher_complete_eq (data : JsVal) (st : PageState) :
    handleSSEEvent data "complete".toList st =
      (completeBranch data st >>= fun s => pure s) := by
  unfold handleSSEEvent
  have hinfo : ¬ ("complete".toList = "info".toList ∨
      ("complete".toList = "video_info".toList ∧ st.videoInfoReceivedRef = false)) := by
    rintro (h | ⟨h, -⟩) <;> exact absurd h (by decide)
  rw [if_neg (show ¬ ("complete".toList = "frame".toList) by decide)]
  simp only [if_neg hinfo,
    if_neg (show ¬ ("complete".toList = "progress".toList) by decide),
    if_neg (show ¬ ("complete".toList = "frame".toList) by decide),
    if_neg (show ¬ ("complete".toList = "error".toList) by decide),
    if_pos (show ("complete".toList = "complete".toList) from rfl),
    pure_eq_ok, bind_ok_unit]
  simp

theorem dispatcher_info_eq (data : JsVal) (st : PageState) :
    handleSSEEvent data "info".toList st =
      (infoBranch data st >>= fun s => pure s) := by
  unfold handleSSEEvent
  have hinfo : ("info".toList = "info".toList ∨
      ("info".toList = "video_info".toList ∧ st.videoInfoReceivedRef = false)) := Or.inl rfl
  rw [if_neg (show ¬ ("info".toList = "frame".toList) by decide)]
  simp only [if_pos hinfo,
    if_neg (show ¬ ("info".toList = "progress".toList) by decide),
    if_neg (show ¬ ("info".toList = "frame".toList) by decide),
    if_neg (show ¬ ("info".toList = "complete".toList) by decide),
    if_neg (show ¬ ("info".toList = "error".toList) by decide),
    pure_eq_ok, bind_ok_unit]
  simp

/-- C5 counterexample: the guard flag only protects `video_info`.  After a
first `info` event has set `videoInfoReceivedRef` and stored duration 5, a
second `info` event re-runs the metadata side effects and overwrites the
stored duration with 7, so duplicate metadata events are not suppressed. -/
theorem metadata_guard_counterexample :
    Except.map (fun s => (s.videoInfoReceivedRef, s.videoInfo.map VideoInfo.duration))
        (handleSSEEvent (.obj [("duration".toList, .num 5)]) "info".toList initPageState)
      = .ok (true, some (.num 5)) ∧
    Except.map (fun s => s.videoInfo.map VideoInfo.duration)
        (Except.bind
          (handleSSEEvent (.obj [("duration".toList, .num 5)]) "info".toList initPageState)
          (fun s1 => handleSSEEvent (.obj [("duration".toList, .num 7)]) "info".toList s1))
      = .ok (some (.num 7)) := ⟨rfl, rfl⟩

/-- C5 (amended): the one-time guard governs only `video_info` events.
Once the flag is set, a later `video_info` event leaves the page state
completely unchanged, while an `info` event re-populates the video
metadata regardless of the flag. -/
theorem metadata_guard_video_info_only (data : JsVal) (st : PageState) :
    (st.videoInfoReceivedRef = true →
      handleSSEEvent data "video_info".toList st = .ok st) ∧
    (∀ kvs, data = .obj kvs →
      ∃ s2, handleSSEEvent data "info".toList st = .ok s2 ∧
        s2.videoInfoReceivedRef = true ∧
        s2.videoInfo = some ⟨jsOr (objField data "duration".toList) (.num 0),
          jsOr (objField data "fps".toList) (.num 0),
          jsOr (objField data "total_frames".toList) (.num 0)⟩) := by
  constructor
  · intro h
    refine dispatcher_skip data st _ (by decide) ?_ (by decide) (by decide)
      (by decide) (by decide)
    rintro ⟨-, hf⟩
    rw [h] at hf
    exact Bool.noConfusion hf
  · intro kvs hdata
    subst hdata
    rw [dispatcher_info_eq]
    obtain ⟨s, hs, hfl, hvi⟩ := infoBranch_spec kvs st
    rw [hs, bind_ok_unit]
    exact ⟨s, rfl, hfl, hvi⟩

/-- Closed witness for C5: with the guard flag already set, a
`video_info` event is a no-op while an `info` event still stores the
fresh duration. -/
theorem metadata_guard_video_info_only_witness :
    (handleSSEEvent (.obj []) "video_info".toList
        { initPageState with videoInfoReceivedRef := true } =
      .ok { initPageState with videoInfoReceivedRef := true }) ∧
    (∃ s2, handleSSEEvent (.obj [("duration".toList, .num 9)]) "info".toList
        { initPageState with videoInfoReceivedRef := true } = .ok s2 ∧
      s2.videoInfoReceivedRef = true ∧
      s2.videoInfo = some ⟨.num 9, .num 0, .num 0⟩) :=
  ⟨(metadata_guard_video_info_only (.obj []) _).1 rfl,
    (metadata_guard_video_info_only (.obj [("duration".toList, .num 9)]) _).2 _ rfl⟩

/-- C6 counterexample: dispatching a `complete` event whose
`detected_actors` entry lacks a `foto_url` field raises a `TypeError`
(the unguarded `actor.foto_url.includes` access), so the dispatcher is
not throw-free on payloads with absent fields. -/
theorem dispatcher_throws_counterexample :
    handleSSEEvent (.obj [("detected_actors".toList, .arr [.obj []])])
      "complete".toList initPageState = .error () := rfl

/-- Closed witness for C6: a well-formed `progress` payload dispatches
without raising. -/
theorem dispatcher_no_throw_witness :
    ∃ s2, handleSSEEvent (.obj [("message".toList, .str "hola".toList)])
      "progress".toList initPageState = .ok s2 :=
  dispatcher_no_throw_general "progress".toList _ initPageState (by decide)
    (fun h => absurd h (by decide))

/-- C7: the `complete` handler stores every detected actor photo URL and
the poster URL rewritten through the backend image proxy exactly when the
URL contains `image.tmdb.org` (percent-encoding the original as the
`url` query parameter), and unchanged otherwise. -/
theorem complete_image_proxy_rewrite (kvs : List (Str × JsVal)) (st : PageState)
    (hact : actorsSafe (objField (.obj kvs) "detected_actors".toList) = true)
    (hfoto : actorsHaveFoto (.obj kvs) = true)
    (hposter : includesSafe (objField (.obj kvs) "poster_url".toList) = true) :
    ∃ s2, handleSSEEvent (.obj kvs) "complete".toList st = .ok s2 ∧
      (∀ actors, objField (.obj kvs) "detected_actors".toList = .arr actors →
        ∃ l, s2.detectedActors = .arr l ∧
          List.Forall₂ (fun a b => ∀ u, objField a "foto_url".toList = .str u →
            objField b "foto_url".toList =
              (if strIncludes "image.tmdb.org".toList u
               then JsVal.str (API_URL ++ "/image-proxy?url=".toList ++ encodeURIComponent u)
               else JsVal.str u)) actors l) ∧
      (∀ u, objField (.obj kvs) "poster_url".toList = .str u → u ≠ [] →
        s2.posterUrl = (if strIncludes "image.tmdb.org".toList u
          then JsVal.str (API_URL ++ "/image-proxy?url=".toList ++ encodeURIComponent u)
          else JsVal.str u)) := by
  obtain ⟨s2, hs2, hactors, hpost⟩ := completeBranch_spec kvs st hact hfoto hposter
  refine ⟨s2, ?_, hactors, hpost⟩
  rw [dispatcher_complete_eq, hs2, bind_ok_unit]
  rfl

/-- Closed witness for C7: one TMDB actor photo and one non-TMDB poster
through a concrete `complete` event. -/
theorem complete_image_proxy_rewrite_witness :
    ∃ s2, handleSSEEvent
        (.obj [("detected_actors".toList,
          .arr [.obj [("foto_url".toList,
            .str "https://image.tmdb.org/t/p/a.jpg".toList)]]),
          ("poster_url".toList, .str "http://example.com/p.png".toList)])
        "complete".toList initPageState = .ok s2 ∧
      (∀ actors, objField (.obj [("detected_actors".toList,
          .arr [.obj [("foto_url".toList,
            .str "https://image.tmdb.org/t/p/a.jpg".toList)]]),
          ("poster_url".toList, .str "http://example.com/p.png".toList)])
          "detected_actors".toList = .arr actors →
        ∃ l, s2.detectedActors = .arr l ∧
          List.Forall₂ (fun a b => ∀ u, objField a "foto_url".toList = .str u →
            objField b "foto_url".toList =
              (if strIncludes "image.tmdb.org".toList u
               then JsVal.str (API_URL ++ "/image-proxy?url=".toList ++ encodeURIComponent u)
               else JsVal.str u)) actors l) ∧
      (∀ u, objField (.obj [("detected_actors".toList,
          .arr [.obj [("foto_url".toList,
            .str "https://image.tmdb.org/t/p/a.jpg".toList)]]),
          ("poster_url".toList, .str "http://example.com/p.png".toList)])
          "poster_url".toList = .str u → u ≠ [] →
        s2.posterUrl = (if strIncludes "image.tmdb.org".toList u
          then JsVal.str (API_URL ++ "/image-proxy?url=".toList ++ encodeURIComponent u)
          else JsVal.str u)) :=
  complete_image_proxy_rewrite _ initPageState (by decide) (by decide) (by decide)

/-- C10: dispatching an event whose kind is none of the six recognized
names (including the empty kind) leaves the entire page state unchanged:
no state setter and no ref mutation is executed. -/
theorem dispatcher_unrecognized_noop (data : JsVal) (st : PageState) (kind : Str)
    (h : kind ∉ ["info".toList, "video_info".toList, "progress".toList,
      "frame".toList, "complete".toList, "error".toList]) :
    handleSSEEvent data kind st = .ok st := by
  simp only [List.mem_cons, List.not_mem_nil, or_false, not_or] at h
  obtain ⟨h1, h2, h3, h4, h5, h6⟩ := h
  exact dispatcher_skip data st kind h1 (fun hc => h2 hc.1) h3 h4 h5 h6

/-- Closed witness for C10: the empty event kind (a `data:` line before
any `event:` line) leaves the initial page state untouched. -/
theorem dispatcher_unrecognized_noop_witness :
    handleSSEEvent (.obj [("progress".toList, .num 42)]) [] initPageState =
      .ok initPageState :=
  dispatcher_unrecognized_noop _ _ [] (by decide)

theorem hexCond_shape (c : JsVal)
    (h : (isStringType (objField c "hex".toList) &&
      jsGtZero (objField (objField c "hex".toList) "length".toList)) = true) :
    ∃ s, objField c "hex".toList = .str s ∧ s ≠ [] := by
  rw [Bool.and_eq_true] at h
  obtain ⟨h1, h2⟩ := h
  cases hv : objField c "hex".toList <;> rw [hv] at h1 h2 <;>
    try exact Bool.noConfusion h1
  case str s =>
    refine ⟨s, rfl, ?_⟩
    rintro rfl
    exact Bool.noConfusion h2

theorem rgbCond_shape (c : JsVal)
    (h : (isArrayVal (objField c "rgb".toList) &&
      (match objField c "rgb".toList with
       | .arr xs => decide (3 ≤ xs.length)
       | _ => false)) = true) :
    ∃ xs, objField c "rgb".toList = .arr xs ∧ 3 ≤ xs.length := by
  rw [Bool.and_eq_true] at h
  obtain ⟨h1, h2⟩ := h
  cases hv : objField c "rgb".toList <;> rw [hv] at h1 h2 <;>
    try exact Bool.noConfusion h1
  case arr xs => exact ⟨xs, rfl, by simpa using h2⟩

theorem colorSchemeFilter_shape (c : JsVal) (h : colorSchemeFilterEntry c = true) :
    (∃ s, objField c "hex".toList = .str s ∧ s ≠ []) ∧
    (∃ xs, objField c "rgb".toList = .arr xs ∧ 3 ≤ xs.length) := by
  unfold colorSchemeFilterEntry at h
  split at h
  · exact Bool.noConfusion h
  · simp only [Bool.and_eq_true] at h
    exact ⟨hexCond_shape c ((Bool.and_eq_true _ _).mpr h.1.1),
      rgbCond_shape c ((Bool.and_eq_true _ _).mpr h.1.2)⟩

theorem validColorsFilter_shape (c : JsVal) (h : validColorsFilterEntry c = true) :
    (∃ s, objField c "hex".toList = .str s ∧ s ≠ []) ∧
    (∃ xs, objField c "rgb".toList = .arr xs ∧ 3 ≤ xs.length) ∧
    (isNumberType (objField c "percentage".toList) = true ∨
      isNumberType (objField c "frequency".toList) = true) := by
  unfold validColorsFilterEntry at h
  simp only [Bool.and_eq_true] at h
  obtain ⟨⟨⟨⟨-, hhx1⟩, hhx2⟩, ⟨⟨-, hrgb1⟩, hrgb2⟩⟩, -, hfrq⟩ := h
  refine ⟨hexCond_shape c ((Bool.and_eq_true _ _).mpr ⟨hhx1, hhx2⟩),
    rgbCond_shape c ((Bool.and_eq_true _ _).mpr ⟨hrgb1, hrgb2⟩), ?_⟩
  rcases (Bool.or_eq_true _ _).mp hfrq with h | h
  · exact Or.inl h
  · exact Or.inr h

/-- C8 (amended): the entries drawn by the colour-scheme chart are
exactly those passing its render-time filter (truthy entry, non-empty
string hex, rgb array of length at least 3, and first-truthy legacy
share — defaulting to 0 — a non-negative number), and the entries drawn
by the PDF palette exactly those passing its filter (hex, rgb of length
at least 3, and a numeric `percentage` or `frequency`; `appearances` is
not accepted); drawn entries come from the input list and rendering
never raises. -/
theorem color_palette_render_validation (l : List JsVal) (c : JsVal) :
    (c ∈ generateColorSchemeColors l → c ∈ l ∧ colorSchemeFilterEntry c = true ∧
      (∃ s, objField c "hex".toList = .str s ∧ s ≠ []) ∧
      (∃ xs, objField c "rgb".toList = .arr xs ∧ 3 ≤ xs.length)) ∧
    (colorSchemeFilterEntry c = false → c ∉ generateColorSchemeColors l) ∧
    (c ∈ pdfValidColors l → c ∈ l ∧ validColorsFilterEntry c = true ∧
      (∃ s, objField c "hex".toList = .str s ∧ s ≠ []) ∧
      (∃ xs, objField c "rgb".toList = .arr xs ∧ 3 ≤ xs.length) ∧
      (isNumberType (objField c "percentage".toList) = true ∨
        isNumberType (objField c "frequency".toList) = true)) ∧
    (validColorsFilterEntry c = false → c ∉ pdfValidColors l) := by
  refine ⟨?_, ?_, ?_, ?_⟩
  · intro hm
    have hf : c ∈ l.filter colorSchemeFilterEntry :=
      List.take_subset 3 _ hm
    obtain ⟨hml, hp⟩ := List.mem_filter.mp hf
    obtain ⟨hhex, hrgb⟩ := colorSchemeFilter_shape c hp
    exact ⟨hml, hp, hhex, hrgb⟩
  · intro hp hm
    have hf : c ∈ l.filter colorSchemeFilterEntry :=
      List.take_subset 3 _ hm
    rw [(List.mem_filter.mp hf).2] at hp
    exact Bool.noConfusion hp
  · intro hm
    obtain ⟨hml, hp⟩ := List.mem_filter.mp hm
    obtain ⟨hhex, hrgb, hfrq⟩ := validColorsFilter_shape c hp
    exact ⟨List.take_subset 5 l hml, hp, hhex, hrgb, hfrq⟩
  · intro hp hm
    rw [(List.mem_filter.mp hm).2] at hp
    exact Bool.noConfusion hp

/-- C8 counterexample: an entry with hex and a 3-channel rgb but no
share field at all is drawn by the chart filter (the `|| 0` default
passes the numeric check), although the claimed validation rejects it;
conversely an entry whose share sits under `appearances` satisfies the
claimed validation but is excluded by the PDF filter. -/
theorem color_filter_counterexample :
    colorSchemeFilterEntry (.obj [("hex".toList, .str "#000000".toList),
      ("rgb".toList, .arr [.num 0, .num 0, .num 0])]) = true ∧
    claimedColorValid (.obj [("hex".toList, .str "#000000".toList),
      ("rgb".toList, .arr [.num 0, .num 0, .num 0])]) = false ∧
    generateColorSchemeColors [.obj [("hex".toList, .str "#000000".toList),
      ("rgb".toList, .arr [.num 0, .num 0, .num 0])]] =
      [.obj [("hex".toList, .str "#000000".toList),
        ("rgb".toList, .arr [.num 0, .num 0, .num 0])]] ∧
    claimedColorValid (.obj [("hex".toList, .str "#000000".toList),
      ("rgb".toList, .arr [.num 0, .num 0, .num 0]),
      ("appearances".toList, .num 5)]) = true ∧
    validColorsFilterEntry (.obj [("hex".toList, .str "#000000".toList),
      ("rgb".toList, .arr [.num 0, .num 0, .num 0]),
      ("appearances".toList, .num 5)]) = false ∧
    pdfValidColors [.obj [("hex".toList, .str "#000000".toList),
      ("rgb".toList, .arr [.num 0, .num 0, .num 0]),
      ("appearances".toList, .num 5)]] = [] :=
  ⟨rfl, rfl, rfl, rfl, rfl, rfl⟩

/-- C9: a null report or one without a (truthy) title makes
`generateNetflixPDF` raise the missing-title error, which the sidebar
handler converts into the generic alert with no file download; a report
with a truthy title never takes the missing-title branch (though the
page-drawing body can still throw a `TypeError` on malformed actor or
palette entries, surfaced as the same generic alert). -/
theorem pdf_missing_title_raises (report : JsVal) :
    ((truthy report = false ∨ truthy (objField report "title".toList) = false) →
      generateNetflixPDF report =
        .raised "El reporte debe tener al menos un título".toList ∧
      handleDownloadPDF report =
        .alerted "Error al generar el PDF. Por favor, intenta de nuevo.".toList) ∧
    (truthy (objField report "title".toList) = true →
      generateNetflixPDF report ≠
        .raised "El reporte debe tener al menos un título".toList) := by
  constructor
  · intro h
    have hguard : (!truthy report || !truthy (objField report "title".toList)) = true := by
      rcases h with h | h
      · rw [h]
        rfl
      · rw [h]
        simp
    have hgen : generateNetflixPDF report =
        .raised "El reporte debe tener al menos un título".toList := by
      unfold generateNetflixPDF
      rw [if_pos hguard]
    refine ⟨hgen, ?_⟩
    unfold handleDownloadPDF
    rw [hgen]
  · intro h
    have hrep : truthy report = true := by
      cases report with
      | obj kvs => rfl
      | arr xs => rfl
      | undefined => exact Bool.noConfusion h
      | null => exact Bool.noConfusion h
      | nan => exact Bool.noConfusion h
      | bool b => exact Bool.noConfusion h
      | num n => exact Bool.noConfusion h
      | str s => exact Bool.noConfusion h
    have hguard : ¬ ((!truthy report || !truthy (objField report "title".toList)) = true) := by
      rw [hrep, h]
      decide
    unfold generateNetflixPDF
    rw [if_neg hguard]
    cases hb : pdfBody report with
    | ok u => intro hc; exact PdfOutcome.noConfusion hc
    | error u => intro hc; exact PdfOutcome.noConfusion hc

/-- Closed witness for C9: the null report raises and alerts; for a
titled report the missing-title branch is not taken. -/
theorem pdf_missing_title_raises_witness :
    (generateNetflixPDF .null =
        .raised "El reporte debe tener al menos un título".toList ∧
      handleDownloadPDF .null =
        .alerted "Error al generar el PDF. Por favor, intenta de nuevo.".toList) ∧
    generateNetflixPDF (.obj [("title".toList, .str "My Movie".toList)]) ≠
      .raised "El reporte debe tener al menos un título".toList :=
  ⟨(pdf_missing_title_raises .null).1 (Or.inl rfl),
    (pdf_missing_title_raises (.obj [("title".toList, .str "My Movie".toList)])).2 rfl⟩

/-- The post-guard body is a real error path of the model: a titled
report whose `detectedActors` entry carries a non-numeric `similitud`
makes `actor.similitud.toFixed(0)` throw, so the call ends in `threw`
(surfaced by the sidebar handler as the generic alert), while the same
report with a numeric `similitud` is saved. -/
theorem generateNetflixPDF_body_throw_example :
    generateNetflixPDF (.obj [("title".toList, .str "T".toList),
      ("detectedActors".toList, .arr [.obj
        [("foto_url".toList, .str "u".toList),
         ("similitud".toList, .str "98".toList)]])]) = .threw ∧
    handleDownloadPDF (.obj [("title".toList, .str "T".toList),
      ("detectedActors".toList, .arr [.obj
        [("foto_url".toList, .str "u".toList),
         ("similitud".toList, .str "98".toList)]])]) =
      .alerted "Error al generar el PDF. Por favor, intenta de nuevo.".toList ∧
    generateNetflixPDF (.obj [("title".toList, .str "T".toList),
      ("detectedActors".toList, .arr [.obj
        [("foto_url".toList, .str "u".toList),
         ("similitud".toList, .num 98)]])]) =
      .saved "CVFlix - T.pdf".toList :=
  ⟨rfl, rfl, rfl⟩

/-- Closed witness for C8: a fully valid entry is kept by both filters. -/
theorem color_palette_render_validation_witness :
    (JsVal.obj [("hex".toList, .str "#112233".toList),
        ("rgb".toList, .arr [.num 17, .num 34, .num 51]),
        ("percentage".toList, .num 10)] ∈
      [JsVal.obj [("hex".toList, .str "#112233".toList),
        ("rgb".toList, .arr [.num 17, .num 34, .num 51]),
        ("percentage".toList, .num 10)]] ∧
      colorSchemeFilterEntry (JsVal.obj [("hex".toList, .str "#112233".toList),
        ("rgb".toList, .arr [.num 17, .num 34, .num 51]),
        ("percentage".toList, .num 10)]) = true ∧
      (∃ s, objField (JsVal.obj [("hex".toList, .str "#112233".toList),
        ("rgb".toList, .arr [.num 17, .num 34, .num 51]),
        ("percentage".toList, .num 10)]) "hex".toList = .str s ∧ s ≠ []) ∧
      (∃ xs, objField (JsVal.obj [("hex".toList, .str "#112233".toList),
        ("rgb".toList, .arr [.num 17, .num 34, .num 51]),
        ("percentage".toList, .num 10)]) "rgb".toList = .arr xs ∧ 3 ≤ xs.length)) :=
  (color_palette_render_validation
      [JsVal.obj [("hex".toList, .str "#112233".toList),
        ("rgb".toList, .arr [.num 17, .num 34, .num 51]),
        ("percentage".toList, .num 10)]]
      (JsVal.obj [("hex".toList, .str "#112233".toList),
        ("rgb".toList, .arr [.num 17, .num 34, .num 51]),
        ("percentage".toList, .num 10)])).1
    (List.mem_singleton.mpr rfl)
